import Mathlib

/-!
Verification development for the test-stand sequencing core:
a shallow embedding of `cycle_fsm.py`, `cyclogram_startup.py`,
`pump_profile.py`, `devices_vesc.py` and the pure control/command state of
`worker.py`, with theorems checking the specified properties.

Python floats are modelled as rationals (`ℚ`), dictionaries with fixed key
sets as structures, and the per-object mutable state of `Hold` instances as
an explicit store indexed by a numeric object identity.
-/

namespace StartUp

/-- `cycle_fsm.CycleInputs`: immutable per-tick snapshot. -/
structure CycleInputs where
  now : ℚ
  t : ℚ
  state_t : ℚ
  pump_rpm : ℚ
  starter_rpm : ℚ
  pump_current : ℚ
  starter_current : ℚ
  psu_v_out : ℚ
  psu_i_out : ℚ
  psu_output : Bool
  deriving Repr, DecidableEq

/-- Value stored in the `CycleTargets.meta` dictionary (the source stores
strings and booleans there: `transition_reason`, `fault`,
`running_manual_pump`). -/
inductive MetaVal where
  | str (s : String)
  | boolV (b : Bool)
  deriving Repr, DecidableEq

/-- The per-tick metadata dictionary, as an association list in insertion
order (Python `dict` with string keys). -/
def Meta : Type := List (String × MetaVal)

instance : DecidableEq Meta := by
  unfold Meta
  infer_instance

instance : Repr Meta := inferInstanceAs (Repr (List (String × MetaVal)))

instance : Inhabited Meta := ⟨([] : List (String × MetaVal))⟩

/-- Python `meta[k] = v`: replace in place if the key exists, else append
(insertion-order dict update). -/
def metaSet (m : Meta) (k : String) (v : MetaVal) : Meta :=
  match m with
  | [] => [(k, v)]
  | (k0, v0) :: rest => if k0 = k then (k0, v) :: rest else (k0, v0) :: metaSet rest k v

/-- Python `meta.get(k)` (first matching key). -/
def metaGet (m : Meta) (k : String) : Option MetaVal :=
  match m with
  | [] => none
  | (k0, v0) :: rest => if k0 = k then some v0 else metaGet rest k

/-- Python `meta.get(k, d)`. -/
def metaGetD (m : Meta) (k : String) (d : MetaVal) : MetaVal :=
  (metaGet m k).getD d

/-- A pump/starter command dict `{"mode": "rpm"|"duty", "value": x}`. -/
@[ext]
structure ActTarget where
  mode : String
  value : ℚ
  deriving Repr, DecidableEq

/-- A PSU command dict `{"v": v, "i": i, "out": b}`. -/
@[ext]
structure PsuTarget where
  v : ℚ
  i : ℚ
  out : Bool
  deriving Repr, DecidableEq

/-- `cycle_fsm.CycleTargets` (pump, starter, psu, meta). -/
@[ext]
structure CycleTargets where
  pump : ActTarget
  starter : ActTarget
  psu : PsuTarget
  meta : Meta
  deriving Repr, DecidableEq

/-- Default-constructed `CycleTargets()`. -/
def CycleTargets.init : CycleTargets :=
  { pump := ⟨"rpm", 0⟩, starter := ⟨"duty", 0⟩, psu := ⟨0, 0, false⟩, meta := [] }

instance : Inhabited CycleTargets := ⟨CycleTargets.init⟩

/-- `targets.meta.clear()`. -/
def clearMeta (tg : CycleTargets) : CycleTargets := { tg with meta := [] }

/-- The mutable `_t0` fields of all live `Hold` objects, indexed by a
numeric object identity assigned when a graph is built. -/
def HoldStates : Type := Nat → Option ℚ

instance : Inhabited HoldStates := ⟨fun _ => none⟩

/-- Point update of the hold store. -/
def hset (s : HoldStates) (id : Nat) (v : Option ℚ) : HoldStates :=
  fun n => if n = id then v else s n

/-- One call of `Hold.__call__` (cycle_fsm.py lines 45-51): if the predicate
holds, latch `_t0` at the first true tick and compare the elapsed time with
`hold_s`; otherwise clear `_t0` and return false. -/
def holdStep (p : CycleInputs → Bool) (hold_s : ℚ) (t0 : Option ℚ) (inp : CycleInputs) :
    Bool × Option ℚ :=
  if p inp then
    match t0 with
    | none => (decide (hold_s ≤ inp.now - inp.now), some inp.now)
    | some t => (decide (hold_s ≤ inp.now - t), some t)
  else (false, none)

/-- A transition guard callable, as used by the concrete graphs: either a
`Hold` object (which exposes `reset`), a plain function that evaluates a
prefix condition and-then a captured `Hold` with Python short-circuit
(`go_running` in cyclogram_startup.py), or a plain stateless lambda. -/
inductive GuardExpr where
  | hold (p : CycleInputs → Bool) (hold_s : ℚ) (id : Nat)
  | fnHoldAnd (pre : CycleInputs → Bool) (p : CycleInputs → Bool) (hold_s : ℚ) (id : Nat)
  | plain (p : CycleInputs → Bool)

/-- The hold-object identities a guard touches. -/
def guardIds : GuardExpr → List Nat
  | .hold _ _ id => [id]
  | .fnHoldAnd _ _ _ id => [id]
  | .plain _ => []

/-- Whether the guard callable exposes a `reset` attribute
(`hasattr(tr.cond, "reset")`): only a bare `Hold` object does; a plain
function wrapping a `Hold` does not. -/
def guardResettable : GuardExpr → Bool
  | .hold _ _ _ => true
  | .fnHoldAnd _ _ _ _ => false
  | .plain _ => false

/-- Evaluate a guard callable: `tr.cond(inp)`, updating the hold store. -/
def evalGuard (g : GuardExpr) (s : HoldStates) (inp : CycleInputs) : Bool × HoldStates :=
  match g with
  | .plain p => (p inp, s)
  | .hold p d id =>
      let r := holdStep p d (s id) inp
      (r.1, hset s id r.2)
  | .fnHoldAnd pre p d id =>
      if pre inp then
        let r := holdStep p d (s id) inp
        (r.1, hset s id r.2)
      else (false, s)

/-- `cycle_fsm.Transition`. -/
structure Transition where
  cond : GuardExpr
  next_state : String
  reason : Option String := none

/-- `cycle_fsm.State`. -/
structure State where
  name : String
  on_enter : Option (CycleInputs → CycleTargets → CycleTargets) := none
  on_tick : Option (CycleInputs → CycleTargets → CycleTargets) := none
  transitions : List Transition := []
  timeout_s : Option ℚ := none
  on_timeout : Option String := none
  timeout_reason : Option String := none
  terminal : Bool := false

/-- The immutable part of a `CycleFSM` object: its state table (a dict
keyed by state name), initial state and stop state. -/
structure FSMGraph where
  states : List (String × State)
  initial : String
  stop_state : String := "Stop"

/-- `self.states[name]` (dict lookup; `none` models `KeyError`). -/
def lookupState (g : FSMGraph) (name : String) : Option State :=
  g.states.lookup name

/-- The mutable part of a `CycleFSM` object. -/
@[ext]
structure FSMState where
  running : Bool
  current : String
  state_enter_time : ℚ
  targets : CycleTargets
  last_state : Option String
  last_transition_reason : Option String
  holds : HoldStates

/-- Freshly constructed `CycleFSM(states, initial)`: all `Hold` objects of a
fresh graph start with `_t0 = None`. -/
def initFSM (g : FSMGraph) : FSMState :=
  { running := false, current := g.initial, state_enter_time := 0,
    targets := CycleTargets.init, last_state := none,
    last_transition_reason := none, holds := fun _ => none }

/-- `for tr in st.transitions: if hasattr(tr.cond, "reset"): tr.cond.reset()`
(cycle_fsm.py lines 137-143). -/
def resetHolds (trs : List Transition) (s : HoldStates) : HoldStates :=
  match trs with
  | [] => s
  | tr :: rest =>
      match tr.cond with
      | .hold _ _ id => resetHolds rest (hset s id none)
      | _ => resetHolds rest s

/-- Apply an optional callback (`if st.on_enter: st.on_enter(inp, targets)`). -/
def applyCb (cb : Option (CycleInputs → CycleTargets → CycleTargets))
    (inp : CycleInputs) (tg : CycleTargets) : CycleTargets :=
  match cb with
  | some f => f inp tg
  | none => tg

/-- `CycleFSM._switch` (cycle_fsm.py lines 130-149). `none` models the
`KeyError` raised when the target state is missing from the table. -/
def fsmSwitch (g : FSMGraph) (m : FSMState) (inp : CycleInputs) (next : String)
    (reason : Option String) : Option FSMState :=
  let m1 : FSMState :=
    { m with last_state := some m.current, current := next,
             state_enter_time := inp.now, last_transition_reason := reason }
  match lookupState g next with
  | none => none
  | some st =>
      let holds1 := resetHolds st.transitions m1.holds
      let tg1 :=
        match reason with
        | some r => if r ≠ "" then { m1.targets with meta := metaSet m1.targets.meta "transition_reason" (.str r) } else m1.targets
        | none => m1.targets
      let tg2 := applyCb st.on_enter inp tg1
      some { m1 with holds := holds1, targets := tg2 }

/-- The transition scan of `CycleFSM.tick` (cycle_fsm.py lines 119-123):
evaluate guards in declaration order, threading the hold store, stopping at
the first guard that returns true. -/
def scanTrans (trs : List Transition) (s : HoldStates) (inp : CycleInputs) :
    Option Transition × HoldStates :=
  match trs with
  | [] => (none, s)
  | tr :: rest =>
      let r := evalGuard tr.cond s inp
      if r.1 then (some tr, r.2) else scanTrans rest r.2 inp

/-- Whether the timeout clause fires:
`st.timeout_s is not None and st.on_timeout` (truthy: a non-empty string)
`and inp.state_t >= float(st.timeout_s)`. -/
def timeoutFires (st : State) (inp : CycleInputs) : Bool :=
  match st.timeout_s, st.on_timeout with
  | some T, some tgt => decide (tgt ≠ "") && decide (T ≤ inp.state_t)
  | _, _ => false

/-- The transition-scan tail of `CycleFSM.tick` (cycle_fsm.py lines
116-128): re-fetch the active state, scan its transitions in order, switch
on the first firing one, and clear `running` if the final state is
terminal.  The active state is re-fetched from the (unchanged) table, so
after a timeout switch this scans the *new* state's transitions. -/
def fsmTickScan (g : FSMGraph) (m2 : FSMState) (inp : CycleInputs) : Option FSMState :=
  match lookupState g m2.current with
  | none => none
  | some st2 =>
      let r := scanTrans st2.transitions m2.holds inp
      let m3 := { m2 with holds := r.2 }
      match r.1 with
      | some tr =>
          match fsmSwitch g m3 inp tr.next_state tr.reason with
          | none => none
          | some m4 =>
              match lookupState g m4.current with
              | none => none
              | some st3 =>
                  some (if st3.terminal then { m4 with running := false } else m4)
      | none =>
          some (if st2.terminal then { m3 with running := false } else m3)

/-- `CycleFSM.tick` (cycle_fsm.py lines 102-128): clear the per-tick meta,
run the active state's `on_tick`, take the timeout switch if it fires,
then hand over to the transition scan. `none` models a `KeyError` on a
missing state name. -/
def fsmTick (g : FSMGraph) (m0 : FSMState) (inp : CycleInputs) : Option FSMState :=
  let m : FSMState :=
    { m0 with targets := clearMeta m0.targets, last_transition_reason := none }
  match lookupState g m.current with
  | none => none
  | some st =>
      let m1 := { m with targets := applyCb st.on_tick inp m.targets }
      if timeoutFires st inp then
        match fsmSwitch g m1 inp ((st.on_timeout).getD "") st.timeout_reason with
        | none => none
        | some m2 => fsmTickScan g m2 inp
      else fsmTickScan g m1 inp

/-- `CycleFSM.start` (cycle_fsm.py lines 94-96). -/
def fsmStart (g : FSMGraph) (m : FSMState) (inp : CycleInputs) : Option FSMState :=
  fsmSwitch g { m with running := true } inp g.initial none

/-- `CycleFSM.stop` (cycle_fsm.py lines 98-100). -/
def fsmStop (g : FSMGraph) (m : FSMState) (inp : CycleInputs) (reason : Option String) :
    Option FSMState :=
  fsmSwitch g { m with running := false } inp g.stop_state reason

/-- A sequence of `tick` calls. -/
def fsmRun (g : FSMGraph) (m : FSMState) : List CycleInputs → Option FSMState
  | [] => some m
  | inp :: rest =>
      match fsmTick g m inp with
      | none => none
      | some m1 => fsmRun g m1 rest

/-! ## Ramp profiles (`pump_profile.py`, `cyclogram_startup.interp_time_value`) -/

/-- `pump_profile.PumpProfile`: parallel time/value tables. -/
structure PumpProfile where
  t : List ℚ
  rpm : List ℚ
  deriving Repr, DecidableEq

/-- `PumpProfile.end_time`: `self.t[-1] if self.t else 0.0`. -/
def PumpProfile.end_time (p : PumpProfile) : ℚ :=
  match p.t with
  | [] => 0
  | x :: xs => xs.getLastD x

/-- The bracketing scan of the interpolators
(`for k in range(1, len(points)): if x <= points[k][0]: ...`), carrying the
previous sample; falling off the loop returns the last sample's value
(`prev` is then the last element). -/
def interpScan (prev : ℚ × ℚ) (rest : List (ℚ × ℚ)) (x : ℚ) : ℚ :=
  match rest with
  | [] => prev.2
  | q :: rest2 =>
      if x ≤ q.1 then
        if q.1 ≤ prev.1 then q.2
        else prev.2 + (x - prev.1) / (q.1 - prev.1) * (q.2 - prev.2)
      else interpScan q rest2 x

/-- `cyclogram_startup.interp_time_value` (lines 74-91), the linear
time-to-value interpolation with first/last clamping, on a list of
`(time, value)` pairs. -/
def interp_time_value (points : List (ℚ × ℚ)) (t : ℚ) : ℚ :=
  match points with
  | [] => 0
  | p0 :: rest =>
      if t ≤ p0.1 then p0.2
      else if (rest.getLastD p0).1 ≤ t then (rest.getLastD p0).2
      else interpScan p0 rest t

/-- `pump_profile.interp_profile` (lines 81-98): the same scan over the
parallel `t`/`rpm` tables, here expressed over the table paired up
index-by-index. -/
def interp_profile (p : PumpProfile) (time_s : ℚ) : ℚ :=
  interp_time_value (p.t.zip p.rpm) time_s

/-! ## Concrete graphs (`cyclogram_startup.py`) -/

/-- `cyclogram_startup.StartupConfig` with its default field values
(including the default `starter_duty_profile_ign` filled in by
`__post_init__`). -/
structure StartupConfig where
  starter_duty_start : ℚ := 1/20
  starter_timeout_s : ℚ := 10
  starter_min_rpm : ℚ := 500
  starter_min_hold_s : ℚ := 3/20
  ignition_timeout_s : ℚ := 20
  valve_v1 : ℚ := 18
  valve_v2 : ℚ := 24
  valve_i : ℚ := 5
  valve_switch_s : ℚ := 1
  starter_duty_profile_ign : List (ℚ × ℚ) :=
    [(0, 1/20), (2, 11/200), (4, 3/50), (6, 13/200)]
  ignition_min_starter_rpm : ℚ := 2000
  ignition_hold_s : ℚ := 1/5
  fuelramp_timeout_s : ℚ := 20
  fuelramp_finish_starter_rpm : ℚ := 20000
  fuelramp_finish_hold_s : ℚ := 3/10
  running_starter_duty : ℚ := 3/40
  deriving Repr, DecidableEq

/-- `cyclogram_startup.CoolingConfig`. -/
structure CoolingConfig where
  duration_s : ℚ := 8
  deriving Repr, DecidableEq

/-- `cyclogram_startup.set_pump_rpm`. -/
def set_pump_rpm (out : CycleTargets) (rpm : ℚ) : CycleTargets :=
  { out with pump := ⟨"rpm", rpm⟩ }

/-- `cyclogram_startup.set_starter_duty`. -/
def set_starter_duty (out : CycleTargets) (duty : ℚ) : CycleTargets :=
  { out with starter := ⟨"duty", duty⟩ }

/-- `cyclogram_startup.set_valve`. -/
def set_valve (out : CycleTargets) (v : ℚ) (i : ℚ) (onb : Bool) : CycleTargets :=
  { out with psu := ⟨v, i, onb⟩ }

/-- `cyclogram_startup.stop_all`. -/
def stop_all (out : CycleTargets) : CycleTargets :=
  set_valve (set_starter_duty (set_pump_rpm out 0) 0) 0 0 false

/-- Identity of the `starter_ready` `Hold` object in the startup graph. -/
def starterReadyId : Nat := 0

/-- Identity of the `ignition_ready` `Hold` object in the startup graph. -/
def ignitionReadyId : Nat := 1

/-- Identity of the `ramp_ready` `Hold` object captured by `go_running` in
the startup graph. -/
def rampReadyId : Nat := 2

/-- `stop_enter` of the startup graph. -/
def startup_stop_enter : CycleInputs → CycleTargets → CycleTargets :=
  fun _i out => stop_all out

/-- `fault_enter` of the startup graph: zero everything and copy the
transition reason (default `"Fault"`) into `meta["fault"]`. -/
def startup_fault_enter : CycleInputs → CycleTargets → CycleTargets :=
  fun _i out =>
    let out := stop_all out
    { out with meta := metaSet out.meta "fault" (metaGetD out.meta "transition_reason" (.str "Fault")) }

/-- `starter_enter` of the startup graph. -/
def starter_enter (cfg : StartupConfig) : CycleInputs → CycleTargets → CycleTargets :=
  fun _i out => set_valve (set_pump_rpm (set_starter_duty out cfg.starter_duty_start) 0) 0 0 false

/-- `ignition_enter` of the startup graph. -/
def ignition_enter (cfg : StartupConfig) : CycleInputs → CycleTargets → CycleTargets :=
  fun _i out => set_valve out cfg.valve_v1 cfg.valve_i true

/-- `ignition_tick` of the startup graph: starter duty from the inline
schedule, valve `V1 -> V2` at `valve_switch_s`, pump RPM from the profile. -/
def ignition_tick (profile : PumpProfile) (cfg : StartupConfig) :
    CycleInputs → CycleTargets → CycleTargets :=
  fun i out =>
    let out := set_starter_duty out (interp_time_value cfg.starter_duty_profile_ign i.state_t)
    let v := if i.state_t < cfg.valve_switch_s then cfg.valve_v1 else cfg.valve_v2
    let out := set_valve out v cfg.valve_i true
    set_pump_rpm out (interp_profile profile i.state_t)

/-- `fuelramp_tick` of the startup graph: valve at `V2`, starter held at the
last schedule duty, pump RPM from the profile. -/
def fuelramp_tick (profile : PumpProfile) (cfg : StartupConfig) :
    CycleInputs → CycleTargets → CycleTargets :=
  fun i out =>
    let out := set_valve out cfg.valve_v2 cfg.valve_i true
    let last_d := (cfg.starter_duty_profile_ign.getLastD (0, 0)).2
    let out := set_starter_duty out last_d
    set_pump_rpm out (interp_profile profile i.state_t)

/-- `running_enter` of the startup graph: valve on, fixed starter duty, and
the `running_manual_pump` marker; the pump is left to the operator. -/
def running_enter (cfg : StartupConfig) : CycleInputs → CycleTargets → CycleTargets :=
  fun _i out =>
    let out := set_valve out cfg.valve_v2 cfg.valve_i true
    let out := set_starter_duty out cfg.running_starter_duty
    { out with meta := metaSet out.meta "running_manual_pump" (.boolV true) }

/-- `running_tick` of the startup graph. -/
def running_tick (cfg : StartupConfig) : CycleInputs → CycleTargets → CycleTargets :=
  fun _i out => set_starter_duty (set_valve out cfg.valve_v2 cfg.valve_i true) cfg.running_starter_duty

/-- The `starter_ready` `Hold`: starter RPM above `starter_min_rpm`, held
`starter_min_hold_s` (cyclogram_startup.py line 105). -/
def starter_ready (cfg : StartupConfig) : GuardExpr :=
  .hold (fun i => decide (cfg.starter_min_rpm ≤ i.starter_rpm))
    cfg.starter_min_hold_s starterReadyId

/-- The `ignition_ready` `Hold` (cyclogram_startup.py line 108). -/
def ignition_ready (cfg : StartupConfig) : GuardExpr :=
  .hold (fun i => decide (cfg.ignition_min_starter_rpm ≤ i.starter_rpm))
    cfg.ignition_hold_s ignitionReadyId

/-- `go_running` (cyclogram_startup.py lines 110-115): a *plain function*
short-circuit-ANDing the pump-profile-completion test `ramp_done_time`
with the captured `ramp_ready` `Hold`.  Unlike a bare `Hold` object it
exposes no `reset` attribute. -/
def go_running (profile : PumpProfile) (cfg : StartupConfig) : GuardExpr :=
  .fnHoldAnd (fun i => decide (profile.end_time ≤ i.state_t))
    (fun i => decide (cfg.fuelramp_finish_starter_rpm ≤ i.starter_rpm))
    cfg.fuelramp_finish_hold_s rampReadyId

/-- The `"Stop"` entry of the startup state dict. -/
def startupStopState : State :=
  { name := "Stop", on_enter := some startup_stop_enter, terminal := true }

/-- The `"Fault"` entry of the startup state dict. -/
def startupFaultState : State :=
  { name := "Fault", on_enter := some startup_fault_enter, terminal := true }

/-- The `"Starter"` entry of the startup state dict. -/
def startupStarterState (cfg : StartupConfig) : State :=
  { name := "Starter",
    on_enter := some (starter_enter cfg),
    transitions := [⟨starter_ready cfg, "Ignition", some "OK: Starter reached rpm"⟩],
    timeout_s := some cfg.starter_timeout_s,
    on_timeout := some "Fault",
    timeout_reason := some "Stop: Starter did not reach rpm in time" }

/-- The `"Ignition"` entry of the startup state dict. -/
def startupIgnitionState (profile : PumpProfile) (cfg : StartupConfig) : State :=
  { name := "Ignition",
    on_enter := some (ignition_enter cfg),
    on_tick := some (ignition_tick profile cfg),
    transitions := [⟨ignition_ready cfg, "FuelRamp", some "OK: Ignition condition reached"⟩],
    timeout_s := some cfg.ignition_timeout_s,
    on_timeout := some "Fault",
    timeout_reason := some "Stop: Ignition timeout" }

/-- The `"FuelRamp"` entry of the startup state dict (its `on_enter`,
`fuelramp_enter`, is a `pass`). -/
def startupFuelRampState (profile : PumpProfile) (cfg : StartupConfig) : State :=
  { name := "FuelRamp",
    on_enter := some (fun _i out => out),
    on_tick := some (fuelramp_tick profile cfg),
    transitions := [⟨go_running profile cfg, "Running", some "OK: FuelRamp done"⟩],
    timeout_s := some cfg.fuelramp_timeout_s,
    on_timeout := some "Fault",
    timeout_reason := some "Stop: FuelRamp timeout" }

/-- The `"Running"` entry of the startup state dict: no transitions, no
timeout — infinite dwell. -/
def startupRunningState (cfg : StartupConfig) : State :=
  { name := "Running",
    on_enter := some (running_enter cfg),
    on_tick := some (running_tick cfg) }

/-- `cyclogram_startup.build_startup_fsm` (lines 97-229): the four-stage
startup graph `Starter -> Ignition -> FuelRamp -> Running` with terminal
`Stop`/`Fault`. The `FuelRamp -> Running` guard is the plain function
`go_running`. The timeout reason f-strings are carried as fixed
non-empty strings (their interpolated numerals are elided; no property here
depends on the digits). -/
def build_startup_fsm (profile : PumpProfile) (cfg : StartupConfig) : FSMGraph :=
  { states :=
      [ ("Stop", startupStopState),
        ("Fault", startupFaultState),
        ("Starter", startupStarterState cfg),
        ("Ignition", startupIgnitionState profile cfg),
        ("FuelRamp", startupFuelRampState profile cfg),
        ("Running", startupRunningState cfg) ],
    initial := "Starter", stop_state := "Stop" }

/-- `max(0.0, min(1.0, x))` (`worker._clamp01`, `VESCDevice.set_duty`,
`build_cooling_fsm`). -/
def clamp01 (x : ℚ) : ℚ := max 0 (min 1 x)

/-- `cooling_enter` of the cooling graph (already-clamped duty). -/
def cooling_enter (duty : ℚ) : CycleInputs → CycleTargets → CycleTargets :=
  fun _i out => set_valve (set_pump_rpm (set_starter_duty out duty) 0) 0 0 false

/-- `cyclogram_startup.build_cooling_fsm` (lines 235-259): a single timed
`Cooling` state that transitions to terminal `Stop` after `duration_s`. The
operator-supplied duty is clamped to `[0, 1]` at construction. -/
def build_cooling_fsm (duty : ℚ) (cfg : CoolingConfig := {}) : FSMGraph :=
  let d := clamp01 duty
  { states :=
      [ ("Cooling",
          { name := "Cooling",
            on_enter := some (cooling_enter d),
            transitions :=
              [⟨.plain (fun i => decide (cfg.duration_s ≤ i.state_t)), "Stop", some "Cooling done"⟩] }),
        ("Stop", { name := "Stop", on_enter := some startup_stop_enter, terminal := true }) ],
    initial := "Cooling", stop_state := "Stop" }

/-! ## Device layer (`devices_vesc.py`) -/

/-- A frame written to a VESC serial link. -/
inductive VescCmd where
  | setDuty (d : ℚ)
  | setRPM (erpm : ℤ)
  deriving Repr, DecidableEq

/-- Python `int(x)` on a float: truncation toward zero. -/
def pytrunc (x : ℚ) : ℤ := if 0 ≤ x then ⌊x⌋ else -⌊-x⌋

/-- `VESCDevice.set_duty` (devices_vesc.py lines 73-77): no-op when
disconnected, otherwise clamp the duty to `[0, 1]` and write the frame. -/
def VESC_set_duty (connected : Bool) (duty : ℚ) : Option VescCmd :=
  if connected then some (.setDuty (clamp01 duty)) else none

/-- `VESCDevice.set_rpm_mech` (devices_vesc.py lines 79-84): mechanical RPM
times `max(1, pole_pairs)`, truncated to an integer electrical RPM. -/
def VESC_set_rpm_mech (connected : Bool) (rpm_mech : ℚ) (pole_pairs : ℤ) : Option VescCmd :=
  if connected then some (.setRPM (pytrunc (rpm_mech * (max 1 pole_pairs : ℤ)))) else none

/-- `devices_vesc.VESCValues`. -/
structure VESCValues where
  rpm_mech : ℚ := 0
  erpm : ℚ := 0
  duty : ℚ := 0
  current_motor : ℚ := 0
  v_in : ℚ := 0
  deriving Repr, DecidableEq

/-! ## Control-loop command state (`worker.py`)

Only the pure command/bookkeeping state of `ControllerWorker` is embedded:
device I/O, Qt signals and file access stay outside the model, and the
`_tick` body is split into its named blocks.  The run-cycle profile caches
are modelled as the already-parsed tables (the spec scopes file loading
out: "only the already-parsed time/value table is in scope"). -/

/-- The fields of the PSU read dict used by the loop (`RidenPSU.read()`);
`none` models the empty dict cached after a disconnect. -/
structure PsuRead where
  v_out : ℚ := 0
  i_out : ℚ := 0
  output : Bool := false
  deriving Repr, DecidableEq

/-- A live cyclogram: the `CycleFSM` object held in `ControllerWorker._fsm`
(its immutable graph plus its mutable state). -/
structure FSMInst where
  graph : FSMGraph
  st : FSMState

/-- A frame written to the Riden PSU link. -/
inductive PsuCmd where
  | setVI (v i : ℚ)
  | output (b : Bool)
  deriving Repr, DecidableEq

/-- The pure command state of `ControllerWorker`. -/
structure Worker where
  stage : String
  t0 : ℚ
  fsm : Option FSMInst
  fsm_prev_state : Option String
  startup_cfg : StartupConfig
  pump_target : ActTarget
  starter_target : ActTarget
  psu_target : PsuTarget
  psu_dirty : Bool
  psu_applied_v : Option ℚ
  psu_applied_i : Option ℚ
  psu_applied_out : Option Bool
  psu_next_cmd : ℚ
  pump_connected : Bool
  starter_connected : Bool
  psu_connected : Bool
  pole_pairs_pump : ℤ
  pole_pairs_starter : ℤ
  last_pump : VESCValues
  last_starter : VESCValues
  last_psu : Option PsuRead
  pump_prof_active : Bool
  pump_prof_prev_stage : String
  pump_prof : Option PumpProfile
  pump_prof_t0 : ℚ
  pump_profile : Option PumpProfile
  starter_profile : Option PumpProfile

/-- `ControllerWorker._stop_pump_profile_internal` (worker.py lines
256-262). -/
def stop_pump_profile_internal (w : Worker) : Worker :=
  if !w.pump_prof_active then w
  else
    { w with pump_prof_active := false, pump_prof_t0 := 0,
             stage := if w.pump_prof_prev_stage ≠ "" then w.pump_prof_prev_stage else "idle" }

/-- `ControllerWorker._set_psu_target` (worker.py lines 426-432): early out
when nothing changed, otherwise store the new target, mark it dirty and
re-arm the command timer at zero. -/
def worker_set_psu_target (w : Worker) (v : ℚ) (i : ℚ) (out : Bool) : Worker :=
  if w.psu_target.v = v ∧ w.psu_target.i = i ∧ w.psu_target.out = out then w
  else { w with psu_target := ⟨v, i, out⟩, psu_dirty := true, psu_next_cmd := 0 }

/-- `ControllerWorker._force_all_off` (worker.py lines 412-424): zero both
actuator targets and the PSU target.  (The best-effort direct device writes
in its `try` block are I/O and leave the command state untouched.) -/
def force_all_off (w : Worker) : Worker :=
  worker_set_psu_target
    { w with pump_target := ⟨"rpm", 0⟩, starter_target := ⟨"duty", 0⟩ } 0 0 false

/-- `ControllerWorker.cmd_stop_all` (worker.py lines 209-215). -/
def cmd_stop_all (w : Worker) : Worker :=
  force_all_off { stop_pump_profile_internal { w with fsm := none } with stage := "stop" }

/-- `ControllerWorker.cmd_set_pump_rpm` (worker.py lines 332-339): a pump
command keeps the cyclogram alive exactly when its state is `Running`. -/
def cmd_set_pump_rpm (w : Worker) (rpm : ℚ) : Worker :=
  let w := stop_pump_profile_internal w
  match w.fsm with
  | some f =>
      if f.st.current = "Running" then { w with pump_target := ⟨"rpm", rpm⟩ }
      else { w with fsm := none, pump_target := ⟨"rpm", rpm⟩ }
  | none => { w with fsm := none, pump_target := ⟨"rpm", rpm⟩ }

/-- `ControllerWorker.cmd_set_pump_duty` (worker.py lines 341-348). -/
def cmd_set_pump_duty (w : Worker) (duty : ℚ) : Worker :=
  let w := stop_pump_profile_internal w
  match w.fsm with
  | some f =>
      if f.st.current = "Running" then { w with pump_target := ⟨"duty", clamp01 duty⟩ }
      else { w with fsm := none, pump_target := ⟨"duty", clamp01 duty⟩ }
  | none => { w with fsm := none, pump_target := ⟨"duty", clamp01 duty⟩ }

/-- `ControllerWorker.cmd_set_starter_duty` (worker.py lines 350-354). -/
def cmd_set_starter_duty (w : Worker) (duty : ℚ) : Worker :=
  let w := stop_pump_profile_internal w
  { w with fsm := none, starter_target := ⟨"duty", clamp01 duty⟩ }

/-- `ControllerWorker.cmd_set_starter_rpm` (worker.py lines 356-360). -/
def cmd_set_starter_rpm (w : Worker) (rpm : ℚ) : Worker :=
  let w := stop_pump_profile_internal w
  { w with fsm := none, starter_target := ⟨"rpm", rpm⟩ }

/-- `ControllerWorker.cmd_psu_set_vi` (worker.py lines 363-367). -/
def cmd_psu_set_vi (w : Worker) (v : ℚ) (i : ℚ) : Worker :=
  let w := stop_pump_profile_internal w
  let w := { w with fsm := none }
  worker_set_psu_target w v i w.psu_target.out

/-- `ControllerWorker.cmd_psu_output` (worker.py lines 369-373). -/
def cmd_psu_output (w : Worker) (on_ : Bool) : Worker :=
  let w := stop_pump_profile_internal w
  let w := { w with fsm := none }
  worker_set_psu_target w w.psu_target.v w.psu_target.i on_

/-- `ControllerWorker._make_inputs` (worker.py lines 461-477). -/
def make_inputs (w : Worker) (now : ℚ) : CycleInputs :=
  { now := now
    t := now - w.t0
    state_t := match w.fsm with
               | some f => now - f.st.state_enter_time
               | none => 0
    pump_rpm := w.last_pump.rpm_mech
    starter_rpm := w.last_starter.rpm_mech
    pump_current := w.last_pump.current_motor
    starter_current := w.last_starter.current_motor
    psu_v_out := match w.last_psu with | some r => r.v_out | none => 0
    psu_i_out := match w.last_psu with | some r => r.i_out | none => 0
    psu_output := match w.last_psu with | some r => r.output | none => false }

/-- `ControllerWorker._ensure_run_profiles` (worker.py lines 434-459) on
the cached tables: both run profiles must be present and non-empty. -/
def ensure_run_profiles (w : Worker) : Bool :=
  (match w.pump_profile with | some p => !p.t.isEmpty | none => false) &&
  (match w.starter_profile with | some p => !p.t.isEmpty | none => false)

/-- Number of parameters `cyclogram_startup.build_startup_fsm(profile,
cfg=None)` can receive positionally. -/
def build_startup_fsm_positional_params : Nat := 2

/-- Number of positional arguments `ControllerWorker.cmd_run_cycle` passes
at worker.py line 190:
`build_startup_fsm(self._pump_profile, self._starter_profile, self.startup_cfg)`. -/
def run_cycle_call_positional_args : Nat := 3

/-- `ControllerWorker.cmd_run_cycle` (worker.py lines 178-194).  After the
profile check succeeds, line 190 applies the imported
`cyclogram_startup.build_startup_fsm` to three positional arguments while
the function accepts at most two, so CPython raises `TypeError` out of the
slot before any machine is constructed; the `Except.error` value carries
that exception. -/
def cmd_run_cycle (w : Worker) (now : ℚ) : Except String Worker :=
  let w1 := stop_pump_profile_internal w
  if ensure_run_profiles w1 then
    let inp := make_inputs w1 now
    if run_cycle_call_positional_args ≤ build_startup_fsm_positional_params then
      match w1.pump_profile with
      | some pp =>
          let g := build_startup_fsm pp w1.startup_cfg
          match fsmStart g (initFSM g) inp with
          | some st =>
              .ok { w1 with fsm := some ⟨g, st⟩, fsm_prev_state := none, stage := st.current }
          | none => .error "KeyError"
      | none => .error "unreachable: ensure_run_profiles guarantees a pump profile"
    else
      .error "TypeError: build_startup_fsm() takes from 1 to 2 positional arguments but 3 were given"
  else .ok w1

/-- The cyclogram block of `ControllerWorker._tick` (worker.py lines
519-534): tick the active machine, surface its stage, and reconcile its
targets — the pump target is overwritten except while the state is
`Running`; starter and PSU targets are always overwritten.  (The one-shot
`Fault`-reason emission touches only the error signal.) -/
def worker_fsm_block (w : Worker) (now : ℚ) : Option Worker :=
  match w.fsm with
  | none => some w
  | some f =>
      let inp := make_inputs w now
      match fsmTick f.graph f.st inp with
      | none => none
      | some st1 =>
          let w1 := { w with fsm := some ⟨f.graph, st1⟩, stage := st1.current }
          let w2 := if some st1.current ≠ w1.fsm_prev_state
                    then { w1 with fsm_prev_state := some st1.current } else w1
          let w3 := if st1.current ≠ "Running"
                    then { w2 with pump_target := st1.targets.pump } else w2
          let w4 := { w3 with starter_target := st1.targets.starter }
          some (worker_set_psu_target w4 st1.targets.psu.v st1.targets.psu.i st1.targets.psu.out)

/-- The PSU-apply block of `ControllerWorker._tick` (worker.py lines
539-560): dispatch only when connected, dirty and past the command timer;
the `v/i` setpoint frame and the output frame are gated independently by
the per-channel applied values.  (The transport-error handler only tears
the device down and is not modelled.) -/
def worker_psu_apply (w : Worker) (now : ℚ) : Worker × List PsuCmd :=
  if w.psu_connected && w.psu_dirty && decide (w.psu_next_cmd ≤ now) then
    let v := w.psu_target.v
    let i := w.psu_target.i
    let o := w.psu_target.out
    let sendVI : Bool := decide (w.psu_applied_v ≠ some v) || decide (w.psu_applied_i ≠ some i)
    let sendOut : Bool := decide (w.psu_applied_out ≠ some o)
    let w1 := if sendVI then { w with psu_applied_v := some v, psu_applied_i := some i } else w
    let w2 := if sendOut then { w1 with psu_applied_out := some o } else w1
    ({ w2 with psu_dirty := false, psu_next_cmd := now + 1/5 },
      (if sendVI then [PsuCmd.setVI v i] else []) ++ (if sendOut then [PsuCmd.output o] else []))
  else (w, [])

/-- `ControllerWorker._vesc_send_and_request` (worker.py lines 617-636):
the frame written for a target — RPM targets through `set_rpm_mech`, any
other mode through `set_duty` with the worker-side `_clamp01` applied
first. -/
def vesc_send_and_request (connected : Bool) (target : ActTarget) (pp : ℤ) : Option VescCmd :=
  if !connected then none
  else if target.mode = "rpm" then VESC_set_rpm_mech connected target.value pp
  else VESC_set_duty connected (clamp01 target.value)

/-! ## Auxiliary definitions for the statements -/

/-- Iterated `Hold.__call__` over a tick sequence, returning the per-tick
results. -/
def holdRun (p : CycleInputs → Bool) (d : ℚ) : Option ℚ → List CycleInputs → List Bool
  | _, [] => []
  | t0, inp :: rest =>
      let r := holdStep p d t0 inp
      r.1 :: holdRun p d r.2 rest

/-- All hold-object identities referenced by a transition list. -/
def transIds (trs : List Transition) : List Nat :=
  (trs.map (fun tr => guardIds tr.cond)).flatten

/-- The timeout clause of a state does not fire on this input: either no
timeout/target is configured (or the target name is falsy), or the state
time is still below the timeout. -/
def TimeoutQuiet (st : State) (inp : CycleInputs) : Prop :=
  ∀ T tgt, st.timeout_s = some T → st.on_timeout = some tgt → tgt ≠ "" → inp.state_t < T

/-- Along these ticks the machine (sitting in a state `st` with timeout
`T`) sees neither its timeout nor any true transition guard: every input
is below the timeout and the declaration-order guard scan finds no firing
transition, tick after tick. -/
def QuietTicks (g : FSMGraph) (st : State) (T : ℚ) : FSMState → List CycleInputs → Prop
  | _, [] => True
  | m, inp :: rest =>
      inp.state_t < T ∧ (scanTrans st.transitions m.holds inp).1 = none ∧
      (match fsmTick g m inp with
       | some m1 => QuietTicks g st T m1 rest
       | none => True)

/-- An input snapshot with the given clock, state time and starter RPM
(other measurements zero), for concrete runs. -/
def mkInp (now state_t srpm : ℚ) : CycleInputs :=
  { now := now, t := now, state_t := state_t, pump_rpm := 0, starter_rpm := srpm,
    pump_current := 0, starter_current := 0, psu_v_out := 0, psu_i_out := 0,
    psu_output := false }

/-- The command state right after `ControllerWorker.__init__`. -/
def worker_init : Worker :=
  { stage := "idle", t0 := 0, fsm := none, fsm_prev_state := none,
    startup_cfg := {},
    pump_target := ⟨"rpm", 0⟩, starter_target := ⟨"duty", 0⟩,
    psu_target := ⟨0, 0, false⟩, psu_dirty := false,
    psu_applied_v := none, psu_applied_i := none, psu_applied_out := none,
    psu_next_cmd := 0,
    pump_connected := false, starter_connected := false, psu_connected := false,
    pole_pairs_pump := 7, pole_pairs_starter := 3,
    last_pump := {}, last_starter := {}, last_psu := none,
    pump_prof_active := false, pump_prof_prev_stage := "idle",
    pump_prof := none, pump_prof_t0 := 0,
    pump_profile := none, starter_profile := none }

/-- A small two-point ramp profile, `(0 s, 1000 rpm) -> (5 s, 3000 rpm)`
(end-to-end scenario C). -/
def rampProfileC : PumpProfile := ⟨[0, 5], [1000, 3000]⟩

/-- The startup graph at default configuration over `rampProfileC`. -/
def startupG : FSMGraph := build_startup_fsm rampProfileC {}

/-- The startup machine freshly started at `now = 0` (it enters `Starter`;
the `getD` fallback is never taken). -/
def startupM0 : FSMState :=
  (fsmStart startupG (initFSM startupG) (mkInp 0 0 0)).getD (initFSM startupG)

/-- A startup machine sitting in `Running` with clean holds. -/
def runningM : FSMState :=
  { running := true, current := "Running", state_enter_time := 0,
    targets := CycleTargets.init, last_state := some "FuelRamp",
    last_transition_reason := none, holds := fun _ => none }

/-- A worker with an active startup cyclogram sitting in `Running`. -/
def runningWorker : Worker :=
  { worker_init with fsm := some ⟨startupG, runningM⟩, stage := "Running",
                     fsm_prev_state := some "Running" }

/-- The default cooling graph at duty `1/2`. -/
def coolingG : FSMGraph := build_cooling_fsm (1/2)

/-- The cooling machine freshly started at `now = 0`. -/
def coolingM0 : FSMState :=
  (fsmStart coolingG (initFSM coolingG) (mkInp 0 0 0)).getD (initFSM coolingG)

/-- First `tick` of the cooling machine at `now = state_t = 8`: the
`Cooling -> Stop` transition fires ("Cooling done"). -/
def coolingTick1 : Option FSMState := fsmTick coolingG coolingM0 (mkInp 8 8 0)

/-- Second `tick` with the very same inputs. -/
def coolingTick2 : Option FSMState :=
  coolingTick1.bind (fun m => fsmTick coolingG m (mkInp 8 8 0))

/-- A two-state graph built on the engine exercising the `go_running`
guard shape: the `A -> B` transition guard is a plain function that
short-circuit-ANDs a trivially true prefix with a captured 1-second
`Hold` (so, like `go_running`, it exposes no `reset`), and `B` returns to
`A` after a quarter second. -/
def wrappedHoldG : FSMGraph :=
  { states :=
      [ ("A", { name := "A",
                transitions :=
                  [⟨.fnHoldAnd (fun _ => true) (fun _ => true) 1 0, "B", some "held"⟩] }),
        ("B", { name := "B",
                transitions :=
                  [⟨.plain (fun i => decide (1/4 ≤ i.state_t)), "A", some "back"⟩] }) ],
    initial := "A" }

/-- `wrappedHoldG` freshly started at `now = 0` (in `A`). -/
def wrappedHoldM0 : FSMState :=
  (fsmStart wrappedHoldG (initFSM wrappedHoldG) (mkInp 0 0 0)).getD (initFSM wrappedHoldG)

/-- The first three ticks: the hold latches at `now = 0`, fires at
`now = 2` (`A -> B`), and `B` returns to `A` at `now = 5/2`. -/
def wrappedHoldTicks3 : List CycleInputs := [mkInp 0 0 0, mkInp 2 2 0, mkInp (5/2) (1/2) 0]

/-- A fourth tick a tenth of a second into the second visit to `A`. -/
def wrappedHoldTick4 : CycleInputs := mkInp (13/5) (1/10) 0

/-- A startup machine whose hold store is uniformly stale (`_t0 = 99`
everywhere), about to be switched into `Starter`. -/
def staleHoldsM : FSMState := { initFSM startupG with holds := fun _ => some 99 }

/-- The machine produced by switching `staleHoldsM` into `Starter`
(the `getD` fallback is never taken: `"Starter"` is in the table). -/
def switchWitnessM : FSMState :=
  (fsmSwitch startupG staleHoldsM (mkInp 0 0 0) "Starter" none).getD staleHoldsM

/-- One tick of the startup machine while sitting in `Running` (the `getD`
fallback is never taken). -/
def runningTickM : FSMState :=
  (fsmTick startupG runningM (make_inputs runningWorker 1)).getD runningM

/-- A connected-PSU worker about to dispatch its first target. -/
def psuW1 : Worker :=
  worker_set_psu_target { worker_init with psu_connected := true } 5 2 true

/-- State after the dispatch at `now = 1` (schedules the next command for
`now = 6/5`). -/
def psuW2 : Worker := (worker_psu_apply psuW1 1).1

/-- A changed voltage target arriving right after that dispatch: the
command timer is re-armed at zero. -/
def psuW3 : Worker := worker_set_psu_target psuW2 6 2 true

/-- A worker ready to run the startup cyclogram: both run profiles are
cached and non-empty. -/
def readyWorker : Worker :=
  { worker_init with pump_profile := some rampProfileC,
                     starter_profile := some ⟨[0], [1/20]⟩ }

/-! # Theorems -/

/-- `_stop_pump_profile_internal` never touches the cyclogram, the targets,
the PSU bookkeeping or the profile caches. -/
theorem spp_preserves (w : Worker) :
    (stop_pump_profile_internal w).fsm = w.fsm ∧
    (stop_pump_profile_internal w).pump_target = w.pump_target ∧
    (stop_pump_profile_internal w).starter_target = w.starter_target ∧
    (stop_pump_profile_internal w).psu_target = w.psu_target ∧
    (stop_pump_profile_internal w).pump_profile = w.pump_profile ∧
    (stop_pump_profile_internal w).starter_profile = w.starter_profile := by
  unfold stop_pump_profile_internal
  split <;> simp

/-- Witness for `spp_preserves`-free use: none needed (no hypotheses). -/
theorem ensure_run_profiles_spp (w : Worker) :
    ensure_run_profiles (stop_pump_profile_internal w) = ensure_run_profiles w := by
  unfold stop_pump_profile_internal
  split <;> rfl

/-- C2: after `cmd_stop_all`, whatever the prior worker state (active
cyclogram or not, any prior targets), the command state used by the next
dispatch has the pump target at RPM 0, the starter target at duty 0, the
PSU target at 0 V / 0 A with output disabled, and no cyclogram (and no
manual profile playback) is active. -/
theorem claim_C2_stop_all (w : Worker) :
    (cmd_stop_all w).pump_target = ⟨"rpm", 0⟩ ∧
    (cmd_stop_all w).starter_target = ⟨"duty", 0⟩ ∧
    (cmd_stop_all w).psu_target = ⟨0, 0, false⟩ ∧
    (cmd_stop_all w).fsm = none ∧
    (cmd_stop_all w).pump_prof_active = false := by
  unfold cmd_stop_all force_all_off worker_set_psu_target stop_pump_profile_internal
  split_ifs with h1 h2 <;> simp_all [PsuTarget.ext_iff]

/-- C1: whenever both run profiles are cached and non-empty (the claim's
"load successfully and are non-empty"), `cmd_run_cycle` does not activate
a startup machine: the three-positional-argument call of the two-parameter
`cyclogram_startup.build_startup_fsm` at worker.py line 190 raises
`TypeError` out of the command slot. -/
theorem claim_C1_run_cycle_type_error (w : Worker) (now : ℚ)
    (h : ensure_run_profiles w = true) :
    cmd_run_cycle w now =
      .error "TypeError: build_startup_fsm() takes from 1 to 2 positional arguments but 3 were given" := by
  unfold cmd_run_cycle
  simp [ensure_run_profiles_spp, h, run_cycle_call_positional_args,
    build_startup_fsm_positional_params]

/-- Witness: a worker with both default-shaped run profiles cached indeed
satisfies the profile check, and its `cmd_run_cycle` raises. -/
theorem claim_C1_run_cycle_type_error_witness :
    ensure_run_profiles readyWorker = true ∧
    cmd_run_cycle readyWorker 0 =
      .error "TypeError: build_startup_fsm() takes from 1 to 2 positional arguments but 3 were given" :=
  ⟨by decide, claim_C1_run_cycle_type_error readyWorker 0 (by decide)⟩

/-- C10: every duty that reaches an actuator device is saturated into
`[0, 1]`: `clamp01` itself is bounded, `VESCDevice.set_duty` only ever
writes a clamped frame, the worker's per-tick dispatch writes a clamped
frame for any non-RPM target, and the cooling graph's `Cooling` state is
built over the construction-clamped operator duty. -/
theorem claim_C10_duty_clamped :
    (∀ x : ℚ, 0 ≤ clamp01 x ∧ clamp01 x ≤ 1) ∧
    (∀ (c : Bool) (x d : ℚ), VESC_set_duty c x = some (.setDuty d) → 0 ≤ d ∧ d ≤ 1) ∧
    (∀ (c : Bool) (tgt : ActTarget) (pp : ℤ) (d : ℚ),
        vesc_send_and_request c tgt pp = some (.setDuty d) → 0 ≤ d ∧ d ≤ 1) ∧
    (∀ (duty : ℚ) (cfg : CoolingConfig),
        ∃ st, lookupState (build_cooling_fsm duty cfg) "Cooling" = some st ∧
          st.on_enter = some (cooling_enter (clamp01 duty)) ∧
          ∀ i out,
            ((cooling_enter (clamp01 duty)) i out).starter.mode = "duty" ∧
            0 ≤ ((cooling_enter (clamp01 duty)) i out).starter.value ∧
            ((cooling_enter (clamp01 duty)) i out).starter.value ≤ 1) := by
  have hb : ∀ x : ℚ, 0 ≤ clamp01 x ∧ clamp01 x ≤ 1 := by
    intro x
    exact ⟨le_max_left 0 _, max_le (by norm_num) (min_le_left 1 x)⟩
  refine ⟨hb, ?_, ?_, ?_⟩
  · intro c x d h
    cases c with
    | false => simp [VESC_set_duty] at h
    | true =>
        simp only [VESC_set_duty, if_true, Option.some.injEq, VescCmd.setDuty.injEq] at h
        exact h ▸ hb x
  · intro c tgt pp d h
    unfold vesc_send_and_request at h
    cases c with
    | false => simp at h
    | true =>
        simp only [Bool.not_true, Bool.false_eq_true, if_false] at h
        by_cases hm : tgt.mode = "rpm"
        · rw [if_pos hm] at h
          simp [VESC_set_rpm_mech] at h
        · rw [if_neg hm] at h
          simp only [VESC_set_duty, if_true, Option.some.injEq, VescCmd.setDuty.injEq] at h
          exact h ▸ hb _
  · intro duty cfg
    refine ⟨_, rfl, rfl, ?_⟩
    intro i out
    exact ⟨rfl, (hb duty).1, (hb duty).2⟩

/-- Witness for C10: an out-of-range manual duty request of `7` is
dispatched as a saturated duty-1 frame, which the theorem bounds. -/
theorem claim_C10_duty_clamped_witness :
    vesc_send_and_request true ⟨"duty", 7⟩ 1 = some (.setDuty 1) ∧
    (0 ≤ (1 : ℚ) ∧ (1 : ℚ) ≤ 1) :=
  ⟨by decide, claim_C10_duty_clamped.2.2.1 true ⟨"duty", 7⟩ 1 1 (by decide)⟩

/-- C8 counterexample: the claim's "minimum inter-command spacing has
elapsed since the previous PSU dispatch" does not hold.  A dispatch goes
out at `now = 1` (scheduling the next for `6/5`), a changed voltage target
then re-arms the timer at zero, and a second dispatch goes out at
`now = 21/20` — only `1/20 s` after the previous one, below the `1/5 s`
spacing. -/
theorem claim_C8_counterexample :
    (worker_psu_apply psuW1 1).2 ≠ [] ∧
    psuW2.psu_next_cmd = 6/5 ∧
    psuW3.psu_dirty = true ∧ psuW3.psu_next_cmd = 0 ∧
    (worker_psu_apply psuW3 (21/20)).2 ≠ [] ∧
    (21/20 : ℚ) < 1 + 1/5 := by
  with_unfolding_all decide

/-- C8 (amended): an outbound PSU frame is dispatched only when the device
is connected, the target changed since last applied (dirty) and the clock
has reached the scheduled next-command time; each dispatch schedules the
next for `0.2 s` later, but any target change re-arms the schedule at
zero, so the spacing since the previous dispatch is not guaranteed across
a change.  The `v/i` setpoint frame and the output frame are gated
independently by the per-channel applied values, so a tick that only
toggles output does not re-send unchanged setpoints. -/
theorem claim_C8_psu_gating_amended :
    (∀ (w : Worker) (now : ℚ), (worker_psu_apply w now).2 ≠ [] →
        w.psu_connected = true ∧ w.psu_dirty = true ∧ w.psu_next_cmd ≤ now) ∧
    (∀ (w : Worker) (now : ℚ),
        w.psu_connected = true → w.psu_dirty = true → w.psu_next_cmd ≤ now →
        ((∃ v i, PsuCmd.setVI v i ∈ (worker_psu_apply w now).2) ↔
            (w.psu_applied_v ≠ some w.psu_target.v ∨ w.psu_applied_i ≠ some w.psu_target.i)) ∧
        ((∃ b, PsuCmd.output b ∈ (worker_psu_apply w now).2) ↔
            w.psu_applied_out ≠ some w.psu_target.out) ∧
        (worker_psu_apply w now).1.psu_next_cmd = now + 1/5) ∧
    (∀ (w : Worker) (v i : ℚ) (o : Bool),
        ¬(w.psu_target.v = v ∧ w.psu_target.i = i ∧ w.psu_target.out = o) →
        (worker_set_psu_target w v i o).psu_dirty = true ∧
        (worker_set_psu_target w v i o).psu_next_cmd = 0) := by
  refine ⟨?_, ?_, ?_⟩
  · intro w now h
    unfold worker_psu_apply at h
    by_cases hg : (w.psu_connected && w.psu_dirty && decide (w.psu_next_cmd ≤ now)) = true
    · simp only [Bool.and_eq_true, decide_eq_true_eq] at hg
      exact ⟨hg.1.1, hg.1.2, hg.2⟩
    · rw [if_neg hg] at h
      simp at h
  · intro w now hc hd ht
    have hg : (w.psu_connected && w.psu_dirty && decide (w.psu_next_cmd ≤ now)) = true := by
      simp [hc, hd, ht]
    by_cases hv : w.psu_applied_v ≠ some w.psu_target.v ∨ w.psu_applied_i ≠ some w.psu_target.i
    · have hvi : (decide (w.psu_applied_v ≠ some w.psu_target.v) ||
          decide (w.psu_applied_i ≠ some w.psu_target.i)) = true := by
        rcases hv with h1 | h1 <;> simp [h1]
      by_cases ho : w.psu_applied_out ≠ some w.psu_target.out
      · have hob : (decide (w.psu_applied_out ≠ some w.psu_target.out)) = true := by simp [ho]
        simp [worker_psu_apply, hg, hvi, hob, hv, ho]
      · have hob : (decide (w.psu_applied_out ≠ some w.psu_target.out)) = false := by
          simpa using ho
        simp [worker_psu_apply, hg, hvi, hob, hv, ho]
    · have hvi : (decide (w.psu_applied_v ≠ some w.psu_target.v) ||
          decide (w.psu_applied_i ≠ some w.psu_target.i)) = false := by
        push_neg at hv
        simp [hv.1, hv.2]
      by_cases ho : w.psu_applied_out ≠ some w.psu_target.out
      · have hob : (decide (w.psu_applied_out ≠ some w.psu_target.out)) = true := by simp [ho]
        simp [worker_psu_apply, hg, hvi, hob, hv, ho]
      · have hob : (decide (w.psu_applied_out ≠ some w.psu_target.out)) = false := by
          simpa using ho
        simp [worker_psu_apply, hg, hvi, hob, hv, ho]
  · intro w v i o h
    unfold worker_set_psu_target
    rw [if_neg h]
    exact ⟨rfl, rfl⟩

/-- Witness for the amended C8 theorem: the first dispatch of `psuW1` at
`now = 1` really emits frames and reschedules for `6/5`. -/
theorem claim_C8_psu_gating_amended_witness :
    ((∃ v i, PsuCmd.setVI v i ∈ (worker_psu_apply psuW1 1).2) ↔
        (psuW1.psu_applied_v ≠ some psuW1.psu_target.v ∨
          psuW1.psu_applied_i ≠ some psuW1.psu_target.i)) ∧
    ((∃ b, PsuCmd.output b ∈ (worker_psu_apply psuW1 1).2) ↔
        psuW1.psu_applied_out ≠ some psuW1.psu_target.out) ∧
    (worker_psu_apply psuW1 1).1.psu_next_cmd = 1 + 1/5 :=
  claim_C8_psu_gating_amended.2.1 psuW1 1 (by with_unfolding_all decide)
    (by with_unfolding_all decide) (by with_unfolding_all decide)

/-- Helper for C4: once the hold has latched `t0` and the wrapped
condition stays true on every tick, each evaluation returns exactly the
comparison `now - t0 ≥ hold_s` and keeps `t0` latched. -/
theorem holdRun_all_true (p : CycleInputs → Bool) (d : ℚ) (t0 : ℚ)
    (l : List CycleInputs) (h : ∀ j ∈ l, p j = true) :
    holdRun p d (some t0) l = l.map (fun j => decide (d ≤ j.now - t0)) := by
  induction l with
  | nil => rfl
  | cons i rest ih =>
      have hi : p i = true := h i (List.mem_cons_self i rest)
      have hstep : holdStep p d (some t0) i = (decide (d ≤ i.now - t0), some t0) := by
        unfold holdStep
        rw [if_pos hi]
      unfold holdRun
      rw [hstep, List.map_cons]
      exact congrArg (List.cons _) (ih (fun j hj => h j (List.mem_cons_of_mem i hj)))

/-- C4: over any strictly time-increasing tick sequence on which the
wrapped condition is continuously true, a fresh `Hold` returns true at
exactly those ticks whose `now` is at least `hold_s` after the first
tick's `now` (the latch time `t0`), and false at every earlier tick; and
any tick on which the condition is false clears the latch
unconditionally, so elapsed-true time never accumulates across gaps. -/
theorem claim_C4_hold (p : CycleInputs → Bool) (d : ℚ)
    (i0 : CycleInputs) (rest : List CycleInputs)
    (_hmono : List.Chain' (fun a b => a.now < b.now) (i0 :: rest))
    (htrue : ∀ j ∈ i0 :: rest, p j = true) :
    holdRun p d none (i0 :: rest) =
      (i0 :: rest).map (fun j => decide (d ≤ j.now - i0.now)) ∧
    (∀ (t0 : Option ℚ) (i : CycleInputs), p i = false → holdStep p d t0 i = (false, none)) := by
  constructor
  · have h0 : p i0 = true := htrue i0 (List.mem_cons_self i0 rest)
    have hstep : holdStep p d none i0 = (decide (d ≤ i0.now - i0.now), some i0.now) := by
      unfold holdStep
      rw [if_pos h0]
    unfold holdRun
    rw [hstep, List.map_cons]
    exact congrArg (List.cons _) (holdRun_all_true p d i0.now rest
      (fun j hj => htrue j (List.mem_cons_of_mem i0 hj)))
  · intro t0 i hfalse
    unfold holdStep
    rw [if_neg (by simp [hfalse])]

/-- Witness for C4: condition continuously true on ticks at `now = 0, 1,
2` with a `3/2 s` hold: false, false, true. -/
theorem claim_C4_hold_witness :
    List.Chain' (fun a b => a.now < b.now) [mkInp 0 0 0, mkInp 1 1 0, mkInp 2 2 0] ∧
    holdRun (fun i => decide (0 ≤ i.starter_rpm)) (3/2) none
      [mkInp 0 0 0, mkInp 1 1 0, mkInp 2 2 0] = [false, false, true] :=
  have hchain : List.Chain' (fun a b : CycleInputs => a.now < b.now)
      [mkInp 0 0 0, mkInp 1 1 0, mkInp 2 2 0] := by
    simp only [List.chain'_cons, List.chain'_singleton, and_true, mkInp]
    norm_num
  ⟨hchain,
    ((claim_C4_hold (fun i => decide (0 ≤ i.starter_rpm)) (3/2) (mkInp 0 0 0)
        [mkInp 1 1 0, mkInp 2 2 0] hchain (by with_unfolding_all decide)).1).trans
      (by with_unfolding_all decide)⟩

/-- In a time-sorted sample list, the head time bounds every entry. -/
theorem pairwise_head_fst_le {l : List (ℚ × ℚ)} {p e : ℚ × ℚ} {j : ℕ}
    (hp : List.Pairwise (fun a b : ℚ × ℚ => a.1 ≤ b.1) (p :: l))
    (he : (p :: l)[j]? = some e) : p.1 ≤ e.1 := by
  cases j with
  | zero =>
      rw [List.getElem?_cons_zero] at he
      injection he with h
      exact h ▸ le_rfl
  | succ n =>
      rw [List.getElem?_cons_succ] at he
      exact (List.pairwise_cons.mp hp).1 e (List.getElem?_mem he)

/-- In a time-sorted sample list, every entry time is bounded by the last
sample's time. -/
theorem pairwise_fst_le_getLastD {l : List (ℚ × ℚ)} {p e : ℚ × ℚ} {j : ℕ}
    (hp : List.Pairwise (fun a b : ℚ × ℚ => a.1 ≤ b.1) (p :: l))
    (he : (p :: l)[j]? = some e) : e.1 ≤ (l.getLastD p).1 := by
  induction l generalizing p j with
  | nil =>
      cases j with
      | zero =>
          rw [List.getElem?_cons_zero] at he
          injection he with h
          simp [← h]
      | succ n =>
          rw [List.getElem?_cons_succ] at he
          simp at he
  | cons q l2 ih =>
      rw [List.getLastD_cons]
      cases j with
      | zero =>
          rw [List.getElem?_cons_zero] at he
          injection he with h
          exact h ▸ (List.pairwise_cons.mp hp).1 _ (List.getLastD_mem_cons l2 q)
      | succ n =>
          rw [List.getElem?_cons_succ] at he
          exact ih (List.pairwise_cons.mp hp).2 he

/-- The bracketing scan: on a time-sorted list, a query strictly above the
`k`-th sample time and at most the `(k+1)`-th lands on that pair and
returns the linear interpolation between the two values. -/
theorem interpScan_between :
    ∀ (k : ℕ) (prev : ℚ × ℚ) (rest : List (ℚ × ℚ)) (x t0 y0 t1 y1 : ℚ),
      List.Pairwise (fun a b : ℚ × ℚ => a.1 ≤ b.1) (prev :: rest) →
      (prev :: rest)[k]? = some (t0, y0) →
      (prev :: rest)[k + 1]? = some (t1, y1) →
      t0 < x → x ≤ t1 →
      interpScan prev rest x = y0 + (x - t0) / (t1 - t0) * (y1 - y0)
  | 0, prev, rest, x, t0, y0, t1, y1, _hp, h0, h1, hx0, hx1 => by
      rw [List.getElem?_cons_zero] at h0
      injection h0 with h0
      cases rest with
      | nil =>
          rw [List.getElem?_cons_succ] at h1
          simp at h1
      | cons q rest2 =>
          rw [List.getElem?_cons_succ, List.getElem?_cons_zero] at h1
          injection h1 with h1
          subst h0
          subst h1
          unfold interpScan
          rw [if_pos hx1, if_neg (not_le.mpr (lt_of_lt_of_le hx0 hx1))]
  | (k + 1), prev, rest, x, t0, y0, t1, y1, hp, h0, h1, hx0, hx1 => by
      cases rest with
      | nil =>
          rw [List.getElem?_cons_succ] at h0
          simp at h0
      | cons q rest2 =>
          rw [List.getElem?_cons_succ] at h0 h1
          have hq : q.1 ≤ t0 := by
            have := pairwise_head_fst_le (List.pairwise_cons.mp hp).2 h0
            simpa using this
          unfold interpScan
          rw [if_neg (not_le.mpr (lt_of_le_of_lt hq hx0))]
          exact interpScan_between k q rest2 x t0 y0 t1 y1
            (List.pairwise_cons.mp hp).2 h0 h1 hx0 hx1

/-- C7 counterexample: two sub-claims fail on the code.  For the
non-empty profile `[(0,1),(0,2)]` the query `t = 0` satisfies
`t ≥` the last sample time `0`, yet the code returns the *first* value `1`
(the first-sample clamp is checked first), not the last value `2`.  And
for `[(0,0),(2,5),(2,9),(3,7)]`, whose second and third sample times are
equal, evaluation at that shared time `2` returns `5` — the value of the
*first* sample of the duplicated pair (the scan stops at the first
bracket) — not the "later value" `9`; the division-by-zero guard branch
never executes. -/
theorem claim_C7_counterexample :
    interp_time_value [(0, 1), (0, 2)] 0 = 1 ∧ ((1 : ℚ) ≠ 2) ∧
    interp_time_value [(0, 0), (2, 5), (2, 9), (3, 7)] 2 = 5 ∧ ((5 : ℚ) ≠ 9) := by
  with_unfolding_all decide

set_option maxRecDepth 4000 in
/-- C7 (amended): for a non-empty sample list, `interpolate` returns the
first value for `t ≤` the first sample time; the last value for
`t ≥` the last sample time provided `t >` the first sample time (the
first-sample clamp takes precedence); for time-sorted samples and `t`
strictly between two consecutive sample times, the linear interpolation of
their values — hence a value between them; the scan's interpolating branch
only ever runs with a strictly positive divisor (its degenerate
equal-times branch is unreachable, so no division by zero occurs, but a
query at a duplicated sample time takes the value interpolated up to the
first sample of the duplicate pair, not the later value); and for points
`(0,1000),(5,3000)`, interpolation at `2.5` gives `2000`. -/
theorem claim_C7_interpolate_amended :
    (∀ (p0 : ℚ × ℚ) (rest : List (ℚ × ℚ)) (x : ℚ), x ≤ p0.1 →
        interp_time_value (p0 :: rest) x = p0.2) ∧
    (∀ (p0 : ℚ × ℚ) (rest : List (ℚ × ℚ)) (x : ℚ), p0.1 < x → (rest.getLastD p0).1 ≤ x →
        interp_time_value (p0 :: rest) x = (rest.getLastD p0).2) ∧
    (∀ (p0 : ℚ × ℚ) (rest : List (ℚ × ℚ)) (k : ℕ) (x t0 y0 t1 y1 : ℚ),
        List.Pairwise (fun a b : ℚ × ℚ => a.1 ≤ b.1) (p0 :: rest) →
        (p0 :: rest)[k]? = some (t0, y0) → (p0 :: rest)[k + 1]? = some (t1, y1) →
        t0 < x → x < t1 →
        interp_time_value (p0 :: rest) x = y0 + (x - t0) / (t1 - t0) * (y1 - y0) ∧
        min y0 y1 ≤ interp_time_value (p0 :: rest) x ∧
        interp_time_value (p0 :: rest) x ≤ max y0 y1) ∧
    (∀ (prev q : ℚ × ℚ) (rest : List (ℚ × ℚ)) (x : ℚ), prev.1 < x → x ≤ q.1 →
        prev.1 < q.1 ∧
        interpScan prev (q :: rest) x =
          prev.2 + (x - prev.1) / (q.1 - prev.1) * (q.2 - prev.2)) ∧
    interp_profile rampProfileC (5/2) = 2000 := by
  refine ⟨?_, ?_, ?_, ?_, ?_⟩
  · intro p0 rest x hx
    simp only [interp_time_value]
    rw [if_pos hx]
  · intro p0 rest x hx0 hx1
    simp only [interp_time_value]
    rw [if_neg (not_le.mpr hx0), if_pos hx1]
  · intro p0 rest k x t0 y0 t1 y1 hp h0 h1 hx0 hx1
    have hhead : p0.1 ≤ t0 := pairwise_head_fst_le hp h0
    have hlast : t1 ≤ (rest.getLastD p0).1 := pairwise_fst_le_getLastD hp h1
    have hlerp : interp_time_value (p0 :: rest) x =
        y0 + (x - t0) / (t1 - t0) * (y1 - y0) := by
      simp only [interp_time_value]
      rw [if_neg (not_le.mpr (lt_of_le_of_lt hhead hx0)),
          if_neg (not_le.mpr (lt_of_lt_of_le hx1 hlast))]
      exact interpScan_between k p0 rest x t0 y0 t1 y1 hp h0 h1 hx0 (le_of_lt hx1)
    have ht01 : t0 < t1 := lt_trans hx0 hx1
    have hden : (0 : ℚ) < t1 - t0 := sub_pos.mpr ht01
    have ha0 : 0 < (x - t0) / (t1 - t0) := div_pos (sub_pos.mpr hx0) hden
    have ha1 : (x - t0) / (t1 - t0) < 1 := (div_lt_one hden).mpr (by linarith)
    refine ⟨hlerp, ?_, ?_⟩ <;> rw [hlerp]
    · rcases le_total y0 y1 with hy | hy
      · rw [min_eq_left hy]
        nlinarith [mul_nonneg ha0.le (sub_nonneg.mpr hy)]
      · rw [min_eq_right hy]
        nlinarith [mul_nonneg (sub_nonneg.mpr ha1.le) (sub_nonneg.mpr hy)]
    · rcases le_total y0 y1 with hy | hy
      · rw [max_eq_right hy]
        nlinarith [mul_nonneg (sub_nonneg.mpr ha1.le) (sub_nonneg.mpr hy)]
      · rw [max_eq_left hy]
        nlinarith [mul_nonneg ha0.le (sub_nonneg.mpr hy)]
  · intro prev q rest x hx0 hx1
    have hlt : prev.1 < q.1 := lt_of_lt_of_le hx0 hx1
    refine ⟨hlt, ?_⟩
    unfold interpScan
    rw [if_pos hx1, if_neg (not_le.mpr hlt)]
  · with_unfolding_all decide

/-- Witness for the amended C7 theorem: scenario C, bracketed between
samples `(0,1000)` and `(5,3000)` at `x = 5/2`, evaluates through the
interpolation formula to `2000`. -/
theorem claim_C7_interpolate_amended_witness :
    interp_time_value [((0 : ℚ), (1000 : ℚ)), (5, 3000)] (5/2) =
      1000 + (5/2 - 0) / (5 - 0) * (3000 - 1000) ∧
    (1000 + (5/2 - 0) / (5 - 0) * (3000 - 1000) : ℚ) = 2000 :=
  ⟨(claim_C7_interpolate_amended.2.2.1 (0, 1000) [(5, 3000)] 0 (5/2) 0 1000 5 3000
      (by simp [List.pairwise_cons]) rfl rfl (by norm_num) (by norm_num)).1,
    by norm_num⟩

/-- `resetHolds` only clears hold slots; a slot that is already clear
stays clear. -/
theorem resetHolds_none_preserve (trs : List Transition) (s : HoldStates) (id : Nat)
    (h : s id = none) : resetHolds trs s id = none := by
  induction trs generalizing s with
  | nil => exact h
  | cons tr rest ih =>
      cases hc : tr.cond with
      | hold p d id2 =>
          simp only [resetHolds, hc]
          refine ih _ ?_
          unfold hset
          split <;> simp [h]
      | fnHoldAnd pre p d id2 => simpa only [resetHolds, hc] using ih _ h
      | plain p => simpa only [resetHolds, hc] using ih _ h

/-- Every transition of the entered state whose guard is a bare `Hold`
object has its slot cleared by `resetHolds`. -/
theorem resetHolds_resets (trs : List Transition) (s : HoldStates) :
    ∀ tr ∈ trs, ∀ (p : CycleInputs → Bool) (d : ℚ) (id : Nat),
      tr.cond = .hold p d id → resetHolds trs s id = none := by
  induction trs generalizing s with
  | nil => intro tr htr; cases htr
  | cons tr0 rest ih =>
      intro tr htr p d id hc
      rcases List.mem_cons.mp htr with h | h
      · subst h
        simp only [resetHolds, hc]
        exact resetHolds_none_preserve _ _ _ (by simp [hset])
      · cases hc0 : tr0.cond with
        | hold p0 d0 id0 =>
            simp only [resetHolds, hc0]
            exact ih _ tr h p d id hc
        | fnHoldAnd pre0 p0 d0 id0 =>
            simp only [resetHolds, hc0]
            exact ih _ tr h p d id hc
        | plain p0 =>
            simp only [resetHolds, hc0]
            exact ih _ tr h p d id hc

/-- C5 counterexample: on the engine, a graph whose `A -> B` guard wraps a
1-second `Hold` in a plain function (the `go_running` shape).  After the
first visit to `A` latches and fires the hold, `B` hands control back to
`A` at `now = 5/2`; re-entry does *not* reset the wrapped hold (its latch
is still the stale `t0 = 0` from the first visit), and a tick only a tenth
of a second into the second visit — far below the 1-second hold — already
fires the transition out of `A` again. -/
theorem claim_C5_counterexample :
    (fsmRun wrappedHoldG wrappedHoldM0 wrappedHoldTicks3).map
        (fun m => (m.current, m.holds 0)) = some ("A", some 0) ∧
    (fsmRun wrappedHoldG wrappedHoldM0 (wrappedHoldTicks3 ++ [wrappedHoldTick4])).map
        (fun m => m.current) = some "B" ∧
    wrappedHoldTick4.state_t < 1 := by
  with_unfolding_all decide

/-- C5 (amended): entering a state resets exactly those of its outgoing
transition guards that are bare `Hold` objects (the callables exposing
`reset`); a `Hold` wrapped inside a plain function — such as the startup
graph's `FuelRamp -> Running` guard `go_running` — exposes no `reset` and
is left untouched, so elapsed-true time can survive a re-entry when the
guard has that shape. -/
theorem claim_C5_switch_resets_amended :
    (∀ (g : FSMGraph) (m : FSMState) (inp : CycleInputs) (next : String)
        (r : Option String) (st : State) (m2 : FSMState),
        lookupState g next = some st →
        fsmSwitch g m inp next r = some m2 →
        ∀ tr ∈ st.transitions, ∀ (p : CycleInputs → Bool) (d : ℚ) (id : Nat),
          tr.cond = .hold p d id → m2.holds id = none) ∧
    (∀ (profile : PumpProfile) (cfg : StartupConfig),
        guardResettable (go_running profile cfg) = false ∧
        guardResettable (starter_ready cfg) = true ∧
        guardResettable (ignition_ready cfg) = true) := by
  constructor
  · intro g m inp next r st m2 hl hs tr htr p d id hc
    unfold fsmSwitch at hs
    rw [hl] at hs
    simp only [Option.some.injEq] at hs
    rw [← hs]
    exact resetHolds_resets st.transitions _ tr htr p d id hc
  · intro profile cfg
    exact ⟨rfl, rfl, rfl⟩

/-- Witness for the amended C5 theorem: switching a machine with a stale
hold store into the startup graph's `Starter` clears the slot of the
`starter_ready` `Hold` guarding `Starter -> Ignition`. -/
theorem claim_C5_switch_resets_amended_witness :
    switchWitnessM.holds starterReadyId = none := by
  have hm2 : fsmSwitch startupG staleHoldsM (mkInp 0 0 0) "Starter" none =
      some switchWitnessM := by
    with_unfolding_all rfl
  exact claim_C5_switch_resets_amended.1 startupG staleHoldsM (mkInp 0 0 0) "Starter" none
    (startupStarterState {}) switchWitnessM rfl hm2
    ⟨starter_ready {}, "Ignition", some "OK: Starter reached rpm"⟩
    (List.mem_singleton_self _) _ _ _ rfl

/-- Updating a hold slot with its current value is a no-op. -/
theorem hset_self (s : HoldStates) (id : Nat) (v : Option ℚ) (h : s id = v) :
    hset s id v = s := by
  funext n
  unfold hset
  by_cases hn : n = id
  · subst hn
    rw [if_pos rfl]
    exact h.symm
  · rw [if_neg hn]

/-- A guard evaluation touches only its own hold slot. -/
theorem evalGuard_untouched (gc : GuardExpr) (s : HoldStates) (inp : CycleInputs)
    (n : Nat) (hn : n ∉ guardIds gc) : (evalGuard gc s inp).2 n = s n := by
  cases gc with
  | plain p => rfl
  | hold p d id =>
      simp only [guardIds, List.mem_singleton] at hn
      simp only [evalGuard, hset]
      rw [if_neg hn]
  | fnHoldAnd pre p d id =>
      simp only [guardIds, List.mem_singleton] at hn
      simp only [evalGuard]
      split
      · simp only [hset]
        rw [if_neg hn]
      · rfl

/-- `transIds` distributes over cons. -/
theorem transIds_cons (tr : Transition) (rest : List Transition) :
    transIds (tr :: rest) = guardIds tr.cond ++ transIds rest := by
  simp [transIds]

/-- The transition scan touches only the hold slots of its own guards. -/
theorem scanTrans_untouched (trs : List Transition) (s : HoldStates) (inp : CycleInputs)
    (n : Nat) (hn : n ∉ transIds trs) : (scanTrans trs s inp).2 n = s n := by
  induction trs generalizing s with
  | nil => rfl
  | cons tr rest ih =>
      rw [transIds_cons] at hn
      simp only [List.mem_append, not_or] at hn
      simp only [scanTrans]
      split
      · exact evalGuard_untouched tr.cond s inp n hn.1
      · rw [ih _ hn.2]
        exact evalGuard_untouched tr.cond s inp n hn.1

/-- Re-running a non-firing `Hold` step on its own output state returns the
same (false) verdict and leaves the state fixed. -/
theorem holdStep_false_fix (p : CycleInputs → Bool) (d : ℚ) (t0 : Option ℚ)
    (inp : CycleInputs) (t1 : Option ℚ)
    (h : holdStep p d t0 inp = (false, t1)) :
    holdStep p d t1 inp = (false, t1) := by
  unfold holdStep at h ⊢
  by_cases hp : p inp = true
  · rw [if_pos hp] at h ⊢
    cases t0 with
    | none =>
        injection h with hb ht
        subst ht
        show (decide (d ≤ inp.now - inp.now), some inp.now) = (false, some inp.now)
        rw [hb]
    | some t =>
        injection h with hb ht
        subst ht
        show (decide (d ≤ inp.now - t), some t) = (false, some t)
        rw [hb]
  · rw [if_neg hp] at h ⊢
    injection h with hb ht
    subst ht
    rfl

/-- Re-evaluating a non-firing guard on any state that agrees with its
output on the guard's own slot returns false again and fixes the state. -/
theorem evalGuard_false_fix (gc : GuardExpr) (s sa s2 : HoldStates) (inp : CycleInputs)
    (h : evalGuard gc s inp = (false, sa))
    (hagree : ∀ n ∈ guardIds gc, s2 n = sa n) :
    evalGuard gc s2 inp = (false, s2) := by
  cases gc with
  | plain p =>
      simp only [evalGuard, Prod.mk.injEq] at h ⊢
      exact ⟨h.1, trivial⟩
  | hold p d id =>
      simp only [evalGuard, Prod.mk.injEq] at h ⊢
      have hid : s2 id = (holdStep p d (s id) inp).2 := by
        rw [hagree id (by simp [guardIds]), ← h.2]
        simp [hset]
      have hfix := holdStep_false_fix p d (s id) inp (holdStep p d (s id) inp).2
        (Prod.ext_iff.mpr ⟨h.1, rfl⟩)
      rw [hid, hfix]
      exact ⟨rfl, hset_self _ _ _ hid⟩
  | fnHoldAnd pre p d id =>
      simp only [evalGuard] at h ⊢
      split at h
      · next hpre =>
          rw [if_pos hpre]
          simp only [Prod.mk.injEq] at h ⊢
          have hid : s2 id = (holdStep p d (s id) inp).2 := by
            rw [hagree id (by simp [guardIds]), ← h.2]
            simp [hset]
          have hfix := holdStep_false_fix p d (s id) inp (holdStep p d (s id) inp).2
            (Prod.ext_iff.mpr ⟨h.1, rfl⟩)
          rw [hid, hfix]
          exact ⟨rfl, hset_self _ _ _ hid⟩
      · next hpre =>
          rw [if_neg hpre]

/-- If a scan with hold-distinct transitions fires nothing, re-running it
on its output hold store fires nothing and leaves the store fixed. -/
theorem scanTrans_none_fix (trs : List Transition) (s s1 : HoldStates) (inp : CycleInputs)
    (hnodup : (transIds trs).Nodup)
    (h : scanTrans trs s inp = (none, s1)) :
    scanTrans trs s1 inp = (none, s1) := by
  induction trs generalizing s with
  | nil => rfl
  | cons tr rest ih =>
      rw [transIds_cons] at hnodup
      rcases hev : evalGuard tr.cond s inp with ⟨b, sa⟩
      simp only [scanTrans, hev] at h
      cases b with
      | true => simp at h
      | false =>
          simp only [if_neg (Bool.false_ne_true)] at h
          have hagree : ∀ n ∈ guardIds tr.cond, s1 n = sa n := by
            intro n hn
            have hu := scanTrans_untouched rest sa inp n
              (fun hmem => (List.disjoint_of_nodup_append hnodup) hn hmem)
            rw [h] at hu
            exact hu
          have hg := evalGuard_false_fix tr.cond s sa s1 inp hev hagree
          simp only [scanTrans, hg]
          simp only [if_neg (Bool.false_ne_true)]
          exact ih sa hnodup.of_append_right h

/-- A quiet timeout clause never fires. -/
theorem timeoutFires_false_of_quiet (st : State) (inp : CycleInputs)
    (h : TimeoutQuiet st inp) : timeoutFires st inp = false := by
  unfold timeoutFires
  cases hts : st.timeout_s with
  | none => rfl
  | some T =>
      cases hto : st.on_timeout with
      | none => rfl
      | some tgt =>
          by_cases htgt : tgt = ""
          · simp [htgt]
          · have := h T tgt hts hto htgt
            simp [not_le.mpr this]

/-- One `tick` in which neither the timeout nor any transition fires:
the machine stays in its state, its targets are the `on_tick` image of the
meta-cleared previous targets, and the hold store advances by the scan. -/
theorem fsmTick_no_switch (g : FSMGraph) (st : State) (m : FSMState) (inp : CycleInputs)
    (hl : lookupState g m.current = some st)
    (htf : timeoutFires st inp = false)
    (hscan : (scanTrans st.transitions m.holds inp).1 = none) :
    fsmTick g m inp = some (
      let mA : FSMState :=
        { m with targets := applyCb st.on_tick inp (clearMeta m.targets),
                 last_transition_reason := none,
                 holds := (scanTrans st.transitions m.holds inp).2 }
      if st.terminal then { mA with running := false } else mA) := by
  have hl2 : lookupState g
      ({ m with targets := clearMeta m.targets, last_transition_reason := none
          : FSMState }).current = some st := hl
  simp only [fsmTick, hl2]
  rw [htf]
  simp only [Bool.false_eq_true, if_false, fsmTickScan, hl]
  rcases hsc : scanTrans st.transitions m.holds inp with ⟨o, s2⟩
  rw [hsc] at hscan
  simp only at hscan
  subst hscan
  rfl

/-- C9 counterexample: calling `tick` twice with the very same inputs does
not produce the same `CycleTargets`.  On the freshly started default
cooling machine at `now = state_t = 8`, the first tick takes
`Cooling -> Stop` and its targets carry
`meta["transition_reason"] = "Cooling done"`; the second tick with the
same snapshot clears the per-tick meta and nothing re-populates it, so
the two returned targets differ. -/
theorem claim_C9_counterexample :
    (coolingTick1.map fun m => metaGet m.targets.meta "transition_reason") =
      some (some (.str "Cooling done")) ∧
    ((coolingTick2.map fun m => metaGet m.targets.meta "transition_reason") =
      some none) ∧
    coolingTick1.map (fun m => m.targets) ≠ coolingTick2.map (fun m => m.targets) := by
  with_unfolding_all decide

/-- C9 (amended): `tick` is idempotent with the same inputs *provided the
first call does not change the current state* (neither its timeout nor any
transition guard fires) and the state's `on_tick` is repetition-stable on
the tick's targets (true of every callback in this repository, which
overwrite their output fields from the inputs alone); the distinct-slots
hypothesis reflects that distinct transitions hold distinct `Hold`
objects.  Under those conditions the second call returns exactly the first
call's machine state, targets included: hold latches set by the first call
do not advance on identical `now`. -/
theorem claim_C9_tick_idempotent_amended (g : FSMGraph) (st : State) (m : FSMState)
    (inp : CycleInputs)
    (hl : lookupState g m.current = some st)
    (hnodup : (transIds st.transitions).Nodup)
    (htq : TimeoutQuiet st inp)
    (hscan : (scanTrans st.transitions m.holds inp).1 = none)
    (hstable : applyCb st.on_tick inp (clearMeta (applyCb st.on_tick inp (clearMeta m.targets)))
        = applyCb st.on_tick inp (clearMeta m.targets)) :
    ∃ m1, fsmTick g m inp = some m1 ∧ fsmTick g m1 inp = some m1 := by
  have htf := timeoutFires_false_of_quiet st inp htq
  rcases hsc : scanTrans st.transitions m.holds inp with ⟨o, hs1⟩
  rw [hsc] at hscan
  simp only at hscan
  subst hscan
  have hfix : scanTrans st.transitions hs1 inp = (none, hs1) :=
    scanTrans_none_fix st.transitions m.holds hs1 inp hnodup hsc
  cases hterm : st.terminal with
  | false =>
      refine ⟨{ m with targets := applyCb st.on_tick inp (clearMeta m.targets),
                       last_transition_reason := none, holds := hs1 }, ?_, ?_⟩
      · rw [fsmTick_no_switch g st m inp hl htf (by rw [hsc])]
        rw [hsc, hterm]
        rfl
      · have h2 := fsmTick_no_switch g st
          { m with targets := applyCb st.on_tick inp (clearMeta m.targets),
                   last_transition_reason := none, holds := hs1 } inp hl htf
          (by show (scanTrans st.transitions hs1 inp).1 = none; rw [hfix])
        rw [h2, hterm]
        have h2scan : scanTrans st.transitions
            ({ m with targets := applyCb st.on_tick inp (clearMeta m.targets),
                      last_transition_reason := none, holds := hs1 } : FSMState).holds inp
            = (none, hs1) := hfix
        simp only [Bool.false_eq_true, if_false, h2scan, Option.some.injEq]
        apply FSMState.ext <;> simp [hstable]
  | true =>
      refine ⟨{ m with targets := applyCb st.on_tick inp (clearMeta m.targets),
                       last_transition_reason := none, holds := hs1,
                       running := false }, ?_, ?_⟩
      · rw [fsmTick_no_switch g st m inp hl htf (by rw [hsc])]
        rw [hsc, hterm]
        rfl
      · have h2 := fsmTick_no_switch g st
          { m with targets := applyCb st.on_tick inp (clearMeta m.targets),
                   last_transition_reason := none, holds := hs1,
                   running := false } inp hl htf
          (by show (scanTrans st.transitions hs1 inp).1 = none; rw [hfix])
        rw [h2, hterm]
        have h2scan : scanTrans st.transitions
            ({ m with targets := applyCb st.on_tick inp (clearMeta m.targets),
                      last_transition_reason := none, holds := hs1,
                      running := false } : FSMState).holds inp
            = (none, hs1) := hfix
        simp only [if_true, h2scan, Option.some.injEq]
        apply FSMState.ext <;> simp [hstable]

/-- Witness for the amended C9 theorem: a startup machine in `Running`
(no transitions, no timeout, write-only `on_tick`) takes one tick to a
state that a second identical tick maps to itself. -/
theorem claim_C9_tick_idempotent_amended_witness :
    ∃ m1, fsmTick startupG runningM (mkInp 1 1 0) = some m1 ∧
      fsmTick startupG m1 (mkInp 1 1 0) = some m1 :=
  claim_C9_tick_idempotent_amended startupG (startupRunningState {}) runningM (mkInp 1 1 0)
    rfl (by with_unfolding_all decide)
    (fun T tgt h1 _ _ => by cases h1)
    (by with_unfolding_all rfl)
    (by with_unfolding_all decide)

/-- `_set_psu_target` always leaves the PSU target equal to its arguments
and never touches the cyclogram, the actuator targets or the stage. -/
theorem worker_set_psu_target_fields (w : Worker) (v i : ℚ) (o : Bool) :
    (worker_set_psu_target w v i o).psu_target = ⟨v, i, o⟩ ∧
    (worker_set_psu_target w v i o).fsm = w.fsm ∧
    (worker_set_psu_target w v i o).pump_target = w.pump_target ∧
    (worker_set_psu_target w v i o).starter_target = w.starter_target ∧
    (worker_set_psu_target w v i o).stage = w.stage := by
  unfold worker_set_psu_target
  split_ifs with hc <;> simp_all [PsuTarget.ext_iff]

/-- C6: while a cyclogram is active with current state `Running`, a manual
pump command (RPM or duty) updates the pump target and leaves the
cyclogram active; the per-tick reconciliation keeps the operator's pump
target while overwriting the starter and PSU targets (and keeps the
machine) from the FSM's tick; every other manual command — starter RPM or
duty, PSU setpoints, PSU output — deactivates the cyclogram
unconditionally, and a pump command while the current state is not
`Running` deactivates it too. -/
theorem claim_C6_running_override :
    (∀ (w : Worker) (rpm : ℚ) (f : FSMInst), w.fsm = some f → f.st.current = "Running" →
        (cmd_set_pump_rpm w rpm).fsm = w.fsm ∧
        (cmd_set_pump_rpm w rpm).pump_target = ⟨"rpm", rpm⟩) ∧
    (∀ (w : Worker) (duty : ℚ) (f : FSMInst), w.fsm = some f → f.st.current = "Running" →
        (cmd_set_pump_duty w duty).fsm = w.fsm ∧
        (cmd_set_pump_duty w duty).pump_target = ⟨"duty", clamp01 duty⟩) ∧
    (∀ (w : Worker) (now : ℚ) (f : FSMInst) (st1 : FSMState),
        w.fsm = some f →
        fsmTick f.graph f.st (make_inputs w now) = some st1 →
        st1.current = "Running" →
        ∃ w2, worker_fsm_block w now = some w2 ∧
          w2.fsm = some ⟨f.graph, st1⟩ ∧
          w2.pump_target = w.pump_target ∧
          w2.starter_target = st1.targets.starter ∧
          w2.psu_target = st1.targets.psu) ∧
    (∀ (w : Worker) (x y : ℚ) (b : Bool),
        (cmd_set_starter_duty w x).fsm = none ∧
        (cmd_set_starter_rpm w x).fsm = none ∧
        (cmd_psu_set_vi w x y).fsm = none ∧
        (cmd_psu_output w b).fsm = none) ∧
    (∀ (w : Worker) (rpm : ℚ) (f : FSMInst), w.fsm = some f → f.st.current ≠ "Running" →
        (cmd_set_pump_rpm w rpm).fsm = none ∧
        (cmd_set_pump_duty w rpm).fsm = none) := by
  refine ⟨?_, ?_, ?_, ?_, ?_⟩
  · intro w rpm f hf hr
    have hfsm : (stop_pump_profile_internal w).fsm = some f := (spp_preserves w).1.trans hf
    simp only [cmd_set_pump_rpm, hfsm]
    rw [if_pos hr]
    exact ⟨hf.symm, rfl⟩
  · intro w duty f hf hr
    have hfsm : (stop_pump_profile_internal w).fsm = some f := (spp_preserves w).1.trans hf
    simp only [cmd_set_pump_duty, hfsm]
    rw [if_pos hr]
    exact ⟨hf.symm, rfl⟩
  · intro w now f st1 hf htick hrun
    have hnr : ¬(st1.current ≠ "Running") := fun hne => hne hrun
    simp only [worker_fsm_block, hf, htick]
    rw [if_neg hnr]
    refine ⟨_, rfl, ?_, ?_, ?_, ?_⟩
    · rw [(worker_set_psu_target_fields _ _ _ _).2.1]
      split <;> rfl
    · rw [(worker_set_psu_target_fields _ _ _ _).2.2.1]
      split <;> rfl
    · rw [(worker_set_psu_target_fields _ _ _ _).2.2.2.1]
    · rw [(worker_set_psu_target_fields _ _ _ _).1]
  · intro w x y b
    refine ⟨rfl, rfl, ?_, ?_⟩
    · exact (worker_set_psu_target_fields _ _ _ _).2.1
    · exact (worker_set_psu_target_fields _ _ _ _).2.1
  · intro w rpm f hf hr
    have hfsm : (stop_pump_profile_internal w).fsm = some f := (spp_preserves w).1.trans hf
    constructor
    · simp only [cmd_set_pump_rpm, hfsm]
      rw [if_neg hr]
    · simp only [cmd_set_pump_duty, hfsm]
      rw [if_neg hr]

/-- Witness for C6: on a worker with an active startup cyclogram in
`Running`, a manual pump-RPM command of 1800 keeps the cyclogram and sets
the target, and the reconciliation tick keeps the operator's pump target
while taking the starter/PSU targets from the machine (scenario D). -/
theorem claim_C6_running_override_witness :
    ((cmd_set_pump_rpm runningWorker 1800).fsm = runningWorker.fsm ∧
      (cmd_set_pump_rpm runningWorker 1800).pump_target = ⟨"rpm", 1800⟩) ∧
    (∃ w2, worker_fsm_block runningWorker 1 = some w2 ∧
      w2.fsm = some ⟨startupG, runningTickM⟩ ∧
      w2.pump_target = runningWorker.pump_target ∧
      w2.starter_target = runningTickM.targets.starter ∧
      w2.psu_target = runningTickM.targets.psu) ∧
    (cmd_set_starter_duty runningWorker (1/2)).fsm = none :=
  ⟨claim_C6_running_override.1 runningWorker 1800 ⟨startupG, runningM⟩ rfl rfl,
   claim_C6_running_override.2.2.1 runningWorker 1 ⟨startupG, runningM⟩ runningTickM rfl
     (by with_unfolding_all rfl) (by with_unfolding_all rfl),
   (claim_C6_running_override.2.2.2.1 runningWorker (1/2) (1/2) true).1⟩

/-- Below its configured timeout, the timeout clause does not fire. -/
theorem timeoutFires_false_of_lt (st : State) (inp : CycleInputs) (T : ℚ) (tgt : String)
    (hts : st.timeout_s = some T) (hto : st.on_timeout = some tgt)
    (hlt : inp.state_t < T) : timeoutFires st inp = false := by
  unfold timeoutFires
  rw [hts, hto]
  simp [not_le.mpr hlt]

/-- Field-level form of `fsmTick_no_switch`: a quiet tick keeps the
current state and its enter time, and advances the holds by the scan. -/
theorem fsmTick_no_switch_current (g : FSMGraph) (st : State) (m : FSMState)
    (inp : CycleInputs)
    (hl : lookupState g m.current = some st)
    (htf : timeoutFires st inp = false)
    (hscan : (scanTrans st.transitions m.holds inp).1 = none) :
    ∃ m1, fsmTick g m inp = some m1 ∧ m1.current = m.current ∧
      m1.state_enter_time = m.state_enter_time ∧
      m1.holds = (scanTrans st.transitions m.holds inp).2 := by
  rw [fsmTick_no_switch g st m inp hl htf hscan]
  refine ⟨_, rfl, ?_, ?_, ?_⟩ <;> (dsimp only; split <;> rfl)

/-- While every tick stays below the timeout and fires no guard of the
current state, a run of ticks leaves the machine in that state. -/
theorem quiet_run (g : FSMGraph) (st : State) (T : ℚ) (tgt : String)
    (hts : st.timeout_s = some T) (hto : st.on_timeout = some tgt) :
    ∀ (inps : List CycleInputs) (m : FSMState),
      lookupState g m.current = some st → QuietTicks g st T m inps →
      ∃ mq, fsmRun g m inps = some mq ∧ mq.current = m.current := by
  intro inps
  induction inps with
  | nil => exact fun m _ _ => ⟨m, rfl, rfl⟩
  | cons i rest ih =>
      intro m hl hq
      obtain ⟨hlt, hscan, hnext⟩ := hq
      have htf := timeoutFires_false_of_lt st i T tgt hts hto hlt
      obtain ⟨m1, htick, hcur, _hentr, _hholds⟩ :=
        fsmTick_no_switch_current g st m i hl htf hscan
      have hl1 : lookupState g m1.current = some st := by rw [hcur]; exact hl
      have hq1 : QuietTicks g st T m1 rest := by
        simp only [htick] at hnext
        exact hnext
      obtain ⟨mq, hrun, hqcur⟩ := ih m1 hl1 hq1
      refine ⟨mq, ?_, hqcur.trans hcur⟩
      simp only [fsmRun, htick]
      exact hrun

/-- The scan tail of `tick`: if no guard of the (re-fetched) active state
fires, the machine stays; otherwise the first firing transition — in
declaration order — is taken. -/
theorem fsmTickScan_cases (g : FSMGraph) (m2 : FSMState) (inp : CycleInputs) (st2 : State)
    (hl2 : lookupState g m2.current = some st2) :
    ((scanTrans st2.transitions m2.holds inp).1 = none →
        ∃ mf, fsmTickScan g m2 inp = some mf ∧ mf.current = m2.current) ∧
    (∀ (tr : Transition) (st3 : State),
        (scanTrans st2.transitions m2.holds inp).1 = some tr →
        lookupState g tr.next_state = some st3 →
        ∃ mf, fsmTickScan g m2 inp = some mf ∧ mf.current = tr.next_state) := by
  constructor
  · intro hnone
    rcases hsc : scanTrans st2.transitions m2.holds inp with ⟨o, s2⟩
    rw [hsc] at hnone
    simp only at hnone
    subst hnone
    simp only [fsmTickScan, hl2, hsc]
    exact ⟨_, rfl, by split <;> rfl⟩
  · intro tr st3 hsome hl3
    rcases hsc : scanTrans st2.transitions m2.holds inp with ⟨o, s2⟩
    rw [hsc] at hsome
    simp only at hsome
    subst hsome
    simp only [fsmTickScan, hl2, hsc, fsmSwitch, hl3]
    exact ⟨_, rfl, by split <;> rfl⟩

/-- A tick taken at or past the timeout (inclusive comparison): the
machine switches to the timeout's target — whose `Hold` guards are reset —
and then scans the *new* state's transitions in declaration order, taking
the first whose guard fires. -/
theorem fsmTick_timeout_fire (g : FSMGraph) (st st2 : State) (T : ℚ) (tgt : String)
    (m : FSMState) (inp : CycleInputs)
    (hl : lookupState g m.current = some st)
    (hts : st.timeout_s = some T) (hto : st.on_timeout = some tgt) (htgt : tgt ≠ "")
    (hT : T ≤ inp.state_t)
    (hl2 : lookupState g tgt = some st2) :
    ((scanTrans st2.transitions (resetHolds st2.transitions m.holds) inp).1 = none →
        ∃ mf, fsmTick g m inp = some mf ∧ mf.current = tgt) ∧
    (∀ (tr : Transition) (st3 : State),
        (scanTrans st2.transitions (resetHolds st2.transitions m.holds) inp).1 = some tr →
        lookupState g tr.next_state = some st3 →
        ∃ mf, fsmTick g m inp = some mf ∧ mf.current = tr.next_state) := by
  have htfire : timeoutFires st inp = true := by
    unfold timeoutFires
    rw [hts, hto]
    simp [htgt, hT]
  have hl0 : lookupState g
      ({ m with targets := clearMeta m.targets, last_transition_reason := none
          : FSMState }).current = some st := hl
  rcases hsw : fsmSwitch g
      { m with targets := applyCb st.on_tick inp (clearMeta m.targets),
               last_transition_reason := none } inp tgt st.timeout_reason with _ | M2
  · exfalso
    unfold fsmSwitch at hsw
    rw [hl2] at hsw
    simp at hsw
  · have hM2 : M2.current = tgt ∧ M2.holds = resetHolds st2.transitions m.holds := by
      unfold fsmSwitch at hsw
      rw [hl2] at hsw
      simp only [Option.some.injEq] at hsw
      rw [← hsw]
      exact ⟨rfl, rfl⟩
    have hstep : fsmTick g m inp = fsmTickScan g M2 inp := by
      simp only [fsmTick, hl0, htfire, if_true, hto, Option.getD_some, hsw]
    rw [hstep]
    have hc := fsmTickScan_cases g M2 inp st2 (by rw [hM2.1]; exact hl2)
    rw [hM2.1, hM2.2] at hc
    exact hc

/-- C3: for a state `S` with a configured timeout and (truthy) timeout
target: as long as every tick keeps `state_t` below the timeout and no
transition guard of `S` fires (in declaration-order scanning), the machine
stays in `S`; at the first tick with `state_t ≥ timeout` — the comparison
is inclusive — the machine switches to the timeout's target, and in that
same tick the transitions of the newly entered target state are scanned in
declaration order: if none fires the machine ends the tick in the timeout
target, and the first whose guard fires is taken otherwise. -/
theorem claim_C3_timeout_semantics (g : FSMGraph) (st st2 : State) (T : ℚ) (tgt : String)
    (m : FSMState) (inps : List CycleInputs) (ilast : CycleInputs)
    (hl : lookupState g m.current = some st)
    (hts : st.timeout_s = some T) (hto : st.on_timeout = some tgt) (htgt : tgt ≠ "")
    (hl2 : lookupState g tgt = some st2)
    (hquiet : QuietTicks g st T m inps)
    (hT : T ≤ ilast.state_t) :
    ∃ mq, fsmRun g m inps = some mq ∧ mq.current = m.current ∧
      (((scanTrans st2.transitions (resetHolds st2.transitions mq.holds) ilast).1 = none →
          ∃ mf, fsmTick g mq ilast = some mf ∧ mf.current = tgt) ∧
       (∀ (tr : Transition) (st3 : State),
          (scanTrans st2.transitions (resetHolds st2.transitions mq.holds) ilast).1 = some tr →
          lookupState g tr.next_state = some st3 →
          ∃ mf, fsmTick g mq ilast = some mf ∧ mf.current = tr.next_state)) := by
  obtain ⟨mq, hrun, hcur⟩ := quiet_run g st T tgt hts hto inps m hl hquiet
  have hlq : lookupState g mq.current = some st := by rw [hcur]; exact hl
  exact ⟨mq, hrun, hcur,
    fsmTick_timeout_fire g st st2 T tgt mq ilast hlq hts hto htgt hT hl2⟩

/-- Witness for C3: the startup machine in `Starter` with starter RPM
stuck at zero sees one quiet tick at `state_t = 5 < 10`, then the tick at
`state_t = 10` (inclusive comparison) lands in `Fault`, whose transition
list is empty, so the no-guard branch applies. -/
theorem claim_C3_timeout_semantics_witness :
    ∃ mq, fsmRun startupG startupM0 [mkInp 5 5 0] = some mq ∧
      mq.current = startupM0.current ∧
      (((scanTrans startupFaultState.transitions
            (resetHolds startupFaultState.transitions mq.holds) (mkInp 10 10 0)).1 = none →
          ∃ mf, fsmTick startupG mq (mkInp 10 10 0) = some mf ∧ mf.current = "Fault") ∧
       (∀ (tr : Transition) (st3 : State),
          (scanTrans startupFaultState.transitions
            (resetHolds startupFaultState.transitions mq.holds) (mkInp 10 10 0)).1 = some tr →
          lookupState startupG tr.next_state = some st3 →
          ∃ mf, fsmTick startupG mq (mkInp 10 10 0) = some mf ∧
            mf.current = tr.next_state)) :=
  claim_C3_timeout_semantics startupG (startupStarterState {}) startupFaultState 10 "Fault"
    startupM0 [mkInp 5 5 0] (mkInp 10 10 0)
    (by with_unfolding_all rfl) rfl rfl (by decide) rfl
    ⟨by decide, by with_unfolding_all rfl, by
      rcases htk : fsmTick startupG startupM0 (mkInp 5 5 0) with _ | m1 <;>
        simp [htk, QuietTicks]⟩
    (by decide)

end StartUp
